import Mathlib

/-!
# go-trace: span wrapper, context propagation and boundary adapters

A shallow embedding of the Go packages `trace`, `http`, `rpc`, `cache` and `orm`.

* The tracing backend (an `opentracing.Tracer` and the spans it hands out) is an external
  collaborator.  It is modelled by the record of the calls made on it: every `StartSpan`,
  `SetTag`, `LogFields` and `Finish` call appends one `Event` to the world, in call order.
  The results of `Extract` and `Inject` are supplied by an `Env`.
* Go maps of type `map[string][]string` (`http.Header`, `metadata.MD`) and `*gin.Context`
  objects are reference types; they live in heaps inside the `World` and are named by index.
* Host callbacks (the next gin handler, the underlying HTTP transport, the RPC handler and
  invoker) are not part of the repository.  A call of one appends an `Event` carrying its
  argument; its result is given by a function of the world at the moment of the call.
* A Go panic is an explicit outcome `Res.panic`; the world reached so far is kept, so that
  deferred calls can still run.
* Pointer receivers that are mutated (`*Tracer` in `SetTag`, `*gorm.DB` in the callbacks)
  are passed by value and the updated value is returned.
-/

namespace GoTrace

/-! ## Values shared by all packages -/

/-- Dynamic values carried by tags and log fields (a Go `interface{}` restricted to scalars). -/
inductive Value where
  | str (s : String)
  | bool (b : Bool)
  | int (i : Int)
  deriving DecidableEq, Repr

/-- Go `opentracing.Tag`. -/
structure Tag where
  Key : String
  Value : Value
  deriving DecidableEq, Repr

/-- Go `log.Field`: a key and a value. -/
structure Field where
  key : String
  value : Value
  deriving DecidableEq, Repr

/-- A non-nil Go `error`: its dynamic type and the text returned by `Error()`.
Two errors of a string-like dynamic type are equal exactly when type and text agree. -/
structure GoError where
  dynType : String
  msg : String
  deriving DecidableEq, Repr

/-- Method `Error()` of a Go error. -/
def GoError.Error (e : GoError) : String := e.msg

/-- Identity of a span handed out by the backend. -/
abbrev SpanId := Nat

/-- Identity of a backend `opentracing.Tracer` object. -/
abbrev TracerRef := Nat

/-- Go `opentracing.SpanContext`: what `span.Context()` returns for a local span, or a
context decoded from a carrier by `Extract`. -/
inductive SpanContext where
  | ofSpan (span : SpanId)
  | remote (token : Nat)
  deriving DecidableEq, Repr

/-- Go `opentracing.StartSpanOption` values the repository passes to `StartSpan`. -/
inductive StartSpanOption where
  | ChildOf (sc : SpanContext)
  | Tag (t : Tag)
  | RPCServerOption (client : SpanContext)
  deriving DecidableEq, Repr

/-- Wire formats of `Extract` and `Inject`. -/
inductive Format where
  | TextMap
  | HTTPHeaders
  deriving DecidableEq, Repr

/-- Contents of a Go `map[string][]string`, as an association list with distinct keys. -/
abbrev StringsMap := List (String × List String)

namespace ext

/-- Go `ext.SpanKindRPCServer`. -/
def SpanKindRPCServer : Tag := { Key := "span.kind", Value := .str "server" }

/-- Go `ext.SpanKindRPCClient`. -/
def SpanKindRPCClient : Tag := { Key := "span.kind", Value := .str "client" }

end ext

namespace opentracing

/-- Parent references a list of start options gives the new span, following `Apply` of each
option: `ChildOf` adds its context, a tag adds none, `RPCServerOption` adds a child-of
reference to the client context. -/
def references : List StartSpanOption → List SpanContext
  | [] => []
  | .ChildOf sc :: rest => sc :: references rest
  | .Tag _ :: rest => references rest
  | .RPCServerOption client :: rest => client :: references rest

/-- Start tags a list of start options gives the new span: a tag option adds itself,
`RPCServerOption` adds `span.kind = server`. -/
def startTags : List StartSpanOption → List Tag
  | [] => []
  | .ChildOf _ :: rest => startTags rest
  | .Tag t :: rest => t :: startTags rest
  | .RPCServerOption _ :: rest => ext.SpanKindRPCServer :: startTags rest

end opentracing

namespace trace

/-- Go `trace.Tracer`: the wrapper around one backend span. -/
structure Tracer where
  Trace : Option TracerRef
  span : Option SpanId
  tags : List Tag
  maxLogs : Int
  deriving DecidableEq, Repr

/-- The zero value of `trace.Tracer` (`var tracer Tracer`). -/
def Tracer.zero : Tracer := { Trace := none, span := none, tags := [], maxLogs := 0 }

end trace

/-! ## Contexts -/

/-- Keys under which the modelled packages store context values. -/
inductive CtxKey where
  | activeSpanKey
  | str (s : String)
  | mdIncomingKey
  | mdOutgoingKey
  | clientEventContextKey
  deriving DecidableEq, Repr

/-- Values stored in a context; `null` is the nil interface. -/
inductive CtxVal where
  | null
  | span (s : SpanId)
  | md (ref : Nat)
  | clientTrace (tr : trace.Tracer)
  | other (v : Value)
  deriving DecidableEq, Repr

/-- Go `context.Context`: the background context, a `context.WithValue` layer, or a
`*gin.Context` (named by its index in the heap of gin contexts). -/
inductive Ctx where
  | background
  | withValue (parent : Ctx) (key : CtxKey) (val : CtxVal)
  | gin (ref : Nat)
  deriving DecidableEq, Repr

/-- Go `url.URL`, reduced to the path and the rendered string. -/
structure URL where
  Path : String
  String : String
  deriving DecidableEq, Repr

/-- Go `http.Request`; `Header` names a map in the heap. -/
structure Request where
  Method : String
  URL : URL
  Header : Nat
  ctx : Ctx
  deriving DecidableEq, Repr

/-- Go `gin.Context`: the request-scoped key table and the request. -/
structure GinContext where
  Keys : List (String × CtxVal)
  Request : Request
  deriving DecidableEq, Repr

/-! ## The world: backend call record, globals and heaps -/

/-- One call made on the backend or on a host callback. -/
inductive Event where
  | StartSpan (tracer : TracerRef) (span : SpanId) (operationName : String)
      (opts : List StartSpanOption)
  | SetTag (span : SpanId) (key : String) (value : Value)
  | LogFields (span : SpanId) (fields : List Field)
  | Finish (span : SpanId)
  | SetOperationName (span : SpanId) (title : String)
  | Next (c : GinContext)
  | RoundTrip (req : Request)
  | Handler (ctx : Ctx)
  | Invoker (ctx : Ctx) (method : String)
  | BodyClose (body : Nat)
  deriving DecidableEq, Repr

/-- Program state: the call record, the counter naming the next span, the package globals
`_tracer` and `DisableClientTrace` of package `trace`, and the heaps. -/
structure World where
  events : List Event
  nextSpan : SpanId
  _tracer : Option TracerRef
  DisableClientTrace : Bool
  maps : List StringsMap
  gins : List GinContext
  deriving DecidableEq, Repr

/-- Outcome of running Go code: normal return with a value, or a panic. -/
inductive Res (α : Type) where
  | ok (a : α) (w : World)
  | panic (msg : String) (w : World)

/-- Computations over the world that may panic. -/
def M (α : Type) : Type := World → Res α

/-- Run a computation from a world. -/
def M.run {α : Type} (m : M α) (w : World) : Res α := m w

/-- Sequencing: a panic in the first part skips the rest. -/
def M.bind {α β : Type} (m : M α) (f : α → M β) : M β := fun w =>
  match m w with
  | .ok a w1 => f a w1
  | .panic msg w1 => .panic msg w1

instance : Monad M where
  pure a := fun w => .ok a w
  bind := M.bind

/-- Read the world. -/
def getWorld : M World := fun w => .ok w w

/-- Replace the world. -/
def setWorld (w1 : World) : M Unit := fun _ => .ok () w1

/-- Append one call to the record. -/
def emit (e : Event) : M Unit := fun w => .ok () { w with events := w.events ++ [e] }

/-- Raise a Go panic. -/
def goPanic {α : Type} (msg : String) : M α := fun w => .panic msg w

/-- Go `defer d` placed before `body`: `d` runs when `body` returns and also when it panics. -/
def withDefer {α : Type} (d : M Unit) (body : M α) : M α := fun w =>
  match body w with
  | .ok a w1 =>
    match d w1 with
    | .ok _ w2 => .ok a w2
    | .panic msg w2 => .panic msg w2
  | .panic msg w1 =>
    match d w1 with
    | .ok _ w2 => .panic msg w2
    | .panic msg2 w2 => .panic msg2 w2

/-- Text of the runtime error for a call through a nil interface or pointer. -/
def nilDeref : String := "invalid memory address or nil pointer dereference"

/-- The calls recorded in `w1` after those already present in `w`. -/
def newEvents (w w1 : World) : List Event := w1.events.drop w.events.length

/-- Value of a successful run, if any. -/
def Res.val? {α : Type} : Res α → Option α
  | .ok a _ => some a
  | .panic _ _ => none

/-- World reached by a run. -/
def Res.world {α : Type} : Res α → World
  | .ok _ w => w
  | .panic _ w => w

/-- Lookup in an association list. -/
def assocGet {β : Type} (key : String) : List (String × β) → Option β
  | [] => none
  | (k, v) :: rest => if k = key then some v else assocGet key rest

/-- Assignment `m[key] = v` on an association list: replace the entry, or add one last. -/
def assocSet {β : Type} (key : String) (v : β) : List (String × β) → List (String × β)
  | [] => [(key, v)]
  | (k, v0) :: rest => if k = key then (k, v) :: rest else (k, v0) :: assocSet key v rest

/-- Go `ctx.Value(key)`.  A `WithValue` layer answers for its own key and otherwise asks its
parent; a gin context answers string keys from its key table. -/
def Ctx.Value (w : World) : Ctx → CtxKey → CtxVal
  | .background, _ => .null
  | .withValue parent k v, key => if k = key then v else parent.Value w key
  | .gin ref, key =>
    match key with
    | .str s =>
      match w.gins[ref]? with
      | some c => (assocGet s c.Keys).getD .null
      | none => .null
    | _ => .null

/-! ## Heap of string-list maps -/

/-- Read `m[key]` of the map named `ref`; a missing map or key reads as the empty list. -/
def mapIndex (w : World) (ref : Nat) (key : String) : List String :=
  ((w.maps[ref]?).bind (assocGet key)).getD []

/-- Contents of the map named `ref`; a name outside the heap is the nil map. -/
def mapContents (w : World) (ref : Nat) : StringsMap := (w.maps[ref]?).getD []

/-- Assignment `m[key] = vals` on the map named `ref`; assigning into a nil map panics. -/
def mapAssign (ref : Nat) (key : String) (vals : List String) : M Unit := fun w =>
  match w.maps[ref]? with
  | none => .panic "assignment to entry in nil map" w
  | some m => .ok () { w with maps := w.maps.set ref (assocSet key vals m) }

/-- Allocate a new map with the given contents and return its name. -/
def mapAlloc (m : StringsMap) : M Nat := fun w =>
  .ok w.maps.length { w with maps := w.maps ++ [m] }

/-! ## HTTP responses -/

/-- Go `io.ReadCloser` of a response: a body of the underlying transport, or the
`closeTracker` wrapper of package `http`. -/
inductive Body where
  | raw (id : Nat)
  | closeTracker (ReadCloser : Body) (tr : trace.Tracer)
  deriving DecidableEq, Repr

/-- Go `http.Response`, reduced to status code and body. -/
structure Response where
  StatusCode : Int
  Body : Body
  deriving DecidableEq, Repr

/-- Go `http.RoundTripper`: the result of `RoundTrip(req)`, which may depend on the heaps. -/
abbrev RoundTripper := World → Request → Option Response × Option GoError

/-- Go `redis.Cmder`, reduced to what the hooks read: the command name, the text rendered by
`rediscmd.CmdString`, and the result of `Err()`. -/
structure Cmder where
  FullName : String
  CmdString : String
  Err : Option GoError
  deriving DecidableEq, Repr

/-! ## External collaborators -/

/-- The parts of the backend and of the standard library the code calls but does not define.
`Extract` decodes a span context from the contents of a carrier or fails; `Inject` yields the
`Set` calls the backend makes on the carrier and its error result; `ToLower` is Go
`strings.ToLower`, the lower-casing of every Unicode letter. -/
structure Env where
  Extract : TracerRef → Format → StringsMap → Except GoError SpanContext
  Inject : SpanId → Format → List (String × String) × Option GoError
  CanonicalMIMEHeaderKey : String → String
  ToLower : String → String
  DefaultTransport : RoundTripper
  bodyClose : Nat → Option GoError
  CmdsString : List Cmder → String

namespace opentracing

/-- Value stored for a span interface: a nil span is the nil interface. -/
def spanVal : Option SpanId → CtxVal
  | some s => .span s
  | none => .null

/-- Go `opentracing.SpanFromContext`: the span under the native key, or nil. -/
def SpanFromContext (w : World) (ctx : Ctx) : Option SpanId :=
  match ctx.Value w .activeSpanKey with
  | .span s => some s
  | _ => none

/-- Go `opentracing.ContextWithSpan`. -/
def ContextWithSpan (ctx : Ctx) (span : Option SpanId) : Ctx :=
  .withValue ctx .activeSpanKey (spanVal span)

/-- Method `StartSpan` of a backend tracer: hands out the next span; on a nil tracer the
call panics. -/
def StartSpan (tracer : Option TracerRef) (operationName : String)
    (opts : List StartSpanOption) : M SpanId := fun w =>
  match tracer with
  | none => .panic nilDeref w
  | some r =>
    .ok w.nextSpan { w with
      events := w.events ++ [.StartSpan r w.nextSpan operationName opts]
      nextSpan := w.nextSpan + 1 }

/-- Method `SetTag` of a span; on a nil span the call panics. -/
def Span.SetTag (span : Option SpanId) (key : String) (value : Value) : M Unit :=
  match span with
  | none => goPanic nilDeref
  | some s => emit (.SetTag s key value)

/-- Method `LogFields` of a span; on a nil span the call panics. -/
def Span.LogFields (span : Option SpanId) (fields : List Field) : M Unit :=
  match span with
  | none => goPanic nilDeref
  | some s => emit (.LogFields s fields)

/-- Method `Finish` of a span; on a nil span the call panics. -/
def Span.Finish (span : Option SpanId) : M Unit :=
  match span with
  | none => goPanic nilDeref
  | some s => emit (.Finish s)

/-- Method `SetOperationName` of a span; on a nil span the call panics. -/
def Span.SetOperationName (span : Option SpanId) (title : String) : M Unit :=
  match span with
  | none => goPanic nilDeref
  | some s => emit (.SetOperationName s title)

/-- Method `Set` of `opentracing.HTTPHeadersCarrier`: `http.Header.Set`, which stores the
single value under the canonical form of the key. -/
def HTTPHeadersCarrier.Set (env : Env) (header : Nat) (key val : String) : M Unit :=
  mapAssign header (env.CanonicalMIMEHeaderKey key) [val]

end opentracing

/-- Apply the `Set` calls of an `Inject` to a carrier, in order. -/
def applyWrites (set : String → String → M Unit) : List (String × String) → M Unit
  | [] => pure ()
  | (k, v) :: rest => do
    set k v
    applyWrites set rest

namespace trace

/-- Modelled from the spec: the tag and log key constants of package `trace` are declared
outside the listed sources; the spec names the error tag `error`. -/
def TagError : String := "error"

/-- Modelled from the spec: key of the component tag (declaration not among the sources). -/
def TagComponent : String := "component"

/-- Modelled from the spec: key of the HTTP method tag (declaration not among the sources). -/
def TagHTTPMethod : String := "http.method"

/-- Modelled from the spec: key of the HTTP URL tag (declaration not among the sources). -/
def TagHTTPURL : String := "http.url"

/-- Modelled from the spec: key of the HTTP status code tag (declaration not among the
sources). -/
def TagHTTPStatusCode : String := "http.status_code"

/-- Modelled from the spec: key of the role tag (declaration not among the sources). -/
def TagSpanKind : String := "span.kind"

/-- Modelled from the spec: key of the peer-service tag (declaration not among the sources). -/
def TagPeerService : String := "peer.service"

/-- Modelled from the spec: key of the statement tag (declaration not among the sources). -/
def TagDBStatement : String := "db.statement"

/-- Modelled from the spec: key of the db-type tag (declaration not among the sources). -/
def TagDBType : String := "db.type"

/-- Modelled from the spec: key of the event log field (declaration not among the sources). -/
def LogEvent : String := "event"

/-- Modelled from the spec: key of the message log field (declaration not among the
sources). -/
def LogMessage : String := "message"

/-- Modelled from the spec: key of the error-object log field (declaration not among the
sources). -/
def LogErrorObject : String := "error.object"

/-- Modelled from the spec: key of the address log field (declaration not among the
sources). -/
def LogAddr : String := "addr"

/-- Modelled from the spec: key of the network log field (declaration not among the
sources). -/
def LogNetwork : String := "network"

/-- Package variable `maxTags`. -/
def maxTags : Int := 128

/-- Package variable `maxLogs`. -/
def maxLogs : Int := 256

/-- Package variable `CtxKey`, the generic context key. -/
def CtxKey : String := "library/net/trace.trace"

/-- Go `GetGlobalTracer`. -/
def GetGlobalTracer : M (Option TracerRef) := fun w => .ok w._tracer w

/-- Go `SetGlobalTracer`. -/
def SetGlobalTracer (tracer : Option TracerRef) : M Unit := fun w =>
  .ok () { w with _tracer := tracer }

/-- Go `trace.ContextWithSpan`. -/
def ContextWithSpan (ctx : Ctx) (span : Option SpanId) : Ctx :=
  opentracing.ContextWithSpan ctx span

/-- Go `trace.Extract`: `_tracer.Extract(format, carrier)`; `carrier` is the contents read. -/
def Extract (env : Env) (format : Format) (carrier : StringsMap) :
    M (Except GoError SpanContext) := fun w =>
  match w._tracer with
  | none => .panic nilDeref w
  | some r => .ok (env.Extract r format carrier) w

/-- Go `trace.Tag`. -/
def Tag (key : String) (value : Value) : GoTrace.Tag := { Key := key, Value := value }

/-- Go `trace.New`. -/
def New (span : Option SpanId) : M Tracer := do
  let tr ← GetGlobalTracer
  return { Trace := tr, span := span, tags := [], maxLogs := 0 }

/-- Go `trace.NewWithTrace`. -/
def NewWithTrace (tr : Option TracerRef) (span : Option SpanId) : Tracer :=
  { Trace := tr, span := span, tags := [], maxLogs := 0 }

/-- Go `trace.StartSpan`. -/
def StartSpan (operationName : String) (opts : List StartSpanOption) : M Tracer := do
  let tr ← GetGlobalTracer
  let span ← opentracing.StartSpan tr operationName opts
  New (some span)

/-- Go `trace.StartSpanFromContext` (package level). -/
def StartSpanFromContext (ctx : Ctx) (operationName : String)
    (opts : List StartSpanOption) : M (Tracer × Bool) := do
  let w ← getWorld
  let tr ← GetGlobalTracer
  match opentracing.SpanFromContext w ctx with
  | some parent =>
    let span ← opentracing.StartSpan tr operationName (opts ++ [.ChildOf (.ofSpan parent)])
    let tracer ← New (some span)
    return (tracer, true)
  | none =>
    match ctx.Value w (.str CtxKey) with
    | .span val =>
      let span ← opentracing.StartSpan tr operationName (opts ++ [.ChildOf (.ofSpan val)])
      let tracer ← New (some span)
      return (tracer, true)
    | _ => return (Tracer.zero, false)

/-- Go `trace.StartSpanFromContextV2`. -/
def StartSpanFromContextV2 (ctx : Ctx) (operationName : String)
    (opts : List StartSpanOption) : M (Tracer × Bool) := do
  let w ← getWorld
  let tr ← GetGlobalTracer
  match ctx.Value w (.str CtxKey) with
  | .span val =>
    let span ← opentracing.StartSpan tr operationName (opts ++ [.ChildOf (.ofSpan val)])
    let tracer ← New (some span)
    return (tracer, true)
  | _ => return (Tracer.zero, false)

/-- Go `LogString`. -/
def LogString (key val : String) : Field := { key := key, value := .str val }

/-- Go `LogBool`. -/
def LogBool (key : String) (val : Bool) : Field := { key := key, value := .bool val }

/-- Go `(*Tracer).Fork`. -/
def Tracer.Fork (t : Tracer) (operationName : String) (opts : List StartSpanOption) :
    M Tracer := do
  match t.span with
  | none => goPanic nilDeref
  | some s =>
    let span ← opentracing.StartSpan t.Trace operationName (opts ++ [.ChildOf (.ofSpan s)])
    return NewWithTrace t.Trace (some span)

/-- Go `(*Tracer).Extract`: `t.Trace.Extract(format, carrier)`. -/
def Tracer.Extract (env : Env) (t : Tracer) (format : Format) (carrier : StringsMap) :
    M (Except GoError SpanContext) :=
  match t.Trace with
  | none => goPanic nilDeref
  | some r => pure (env.Extract r format carrier)

/-- Go `(*Tracer).Inject`: the backend of the span writes its entries through the `Set`
method of the carrier and returns its error. -/
def Tracer.Inject (env : Env) (t : Tracer) (format : Format)
    (carrierSet : String → String → M Unit) : M (Option GoError) :=
  match t.span with
  | none => goPanic nilDeref
  | some s => do
    applyWrites carrierSet (env.Inject s format).1
    return (env.Inject s format).2

/-- Go `(*Tracer).StartSpan`. -/
def Tracer.StartSpan (t : Tracer) (operationName : String) (opts : List StartSpanOption) :
    M Tracer := do
  let span ← opentracing.StartSpan t.Trace operationName opts
  return NewWithTrace t.Trace (some span)

/-- Go `trace.SpanFromContext`. -/
def SpanFromContext (ctx : Ctx) : M (Tracer × Bool) := do
  let w ← getWorld
  match opentracing.SpanFromContext w ctx with
  | some parent =>
    let t ← New (some parent)
    return (t, true)
  | none => return (Tracer.zero, false)

/-- Go `(*Tracer).StartSpanFromContext`. -/
def Tracer.StartSpanFromContext (t : Tracer) (ctx : Ctx) (operationName : String)
    (opts : List StartSpanOption) : M (Tracer × Bool) := do
  let w ← getWorld
  let opts1 :=
    match opentracing.SpanFromContext w ctx with
    | some parent => opts ++ [.ChildOf (.ofSpan parent)]
    | none =>
      match ctx.Value w (.str CtxKey) with
      | .span val => opts ++ [.ChildOf (.ofSpan val)]
      | _ => opts
  let span ← opentracing.StartSpan t.Trace operationName opts1
  return (NewWithTrace t.Trace (some span), true)

/-- Go `(*Tracer).ContextWithSpan`. -/
def Tracer.ContextWithSpan (t : Tracer) (ctx : Ctx) : Ctx :=
  opentracing.ContextWithSpan ctx t.span

/-- Go `(*Tracer).Finish`; the error pointer is not read. -/
def Tracer.Finish (t : Tracer) (_err : Option (Option GoError)) : M Unit :=
  match t.span with
  | some s => opentracing.Span.Finish (some s)
  | none => pure ()

/-- The loop `for _, tag := range tags { t.span.SetTag(tag.Key, tag.Value) }`. -/
def spanSetTags (span : Option SpanId) : List GoTrace.Tag → M Unit
  | [] => pure ()
  | tag :: rest => do
    opentracing.Span.SetTag span tag.Key tag.Value
    spanSetTags span rest

/-- Go `(*Tracer).SetTag`; the updated receiver is returned. -/
def Tracer.SetTag (t : Tracer) (tags : List GoTrace.Tag) : M Tracer := do
  let t1 := if (tags.length : Int) < trace.maxTags then { t with tags := t.tags ++ tags } else t
  let t2 :=
    if (tags.length : Int) = trace.maxTags then
      { t1 with tags := t1.tags ++ [{ Key := "trace.error", Value := .str "too many tags" }] }
    else t1
  spanSetTags t2.span tags
  return t2

/-- Go `(*Tracer).SetLog`; the receiver is returned unchanged. -/
def Tracer.SetLog (t : Tracer) (logs : List Field) : M Tracer := do
  if t.maxLogs + (logs.length : Int) < trace.maxLogs then
    opentracing.Span.LogFields t.span logs
  else
    opentracing.Span.LogFields t.span [LogString "trace.error" "too many logs"]
  return t

/-- Go `(*Tracer).GetSpan`. -/
def Tracer.GetSpan (t : Tracer) : Option SpanId := t.span

/-- Go `(*Tracer).SetTitle`. -/
def Tracer.SetTitle (t : Tracer) (title : String) : M Unit :=
  opentracing.Span.SetOperationName t.span title

/-- A sequence of `SetTag` calls on one Tracer, one argument list per call. -/
def Tracer.SetTagCalls (t : Tracer) : List (List GoTrace.Tag) → M Tracer
  | [] => pure t
  | tags :: rest => do
    let t1 ← t.SetTag tags
    Tracer.SetTagCalls t1 rest

/-- A sequence of `SetLog` calls on one Tracer, one argument list per call. -/
def Tracer.SetLogCalls (t : Tracer) : List (List Field) → M Tracer
  | [] => pure t
  | logs :: rest => do
    let t1 ← t.SetLog logs
    Tracer.SetLogCalls t1 rest

end trace

/-! ## Heap of gin contexts -/

namespace gin

/-- Dereference a `*gin.Context`; a name outside the heap is a nil pointer. -/
def get (c : Nat) : M GinContext := fun w =>
  match w.gins[c]? with
  | none => .panic nilDeref w
  | some g => .ok g w

/-- Go `(*gin.Context).Set`: `c.Keys[key] = value`. -/
def Set (c : Nat) (key : String) (value : CtxVal) : M Unit := fun w =>
  match w.gins[c]? with
  | none => .panic nilDeref w
  | some g => .ok () { w with gins := w.gins.set c { g with Keys := assocSet key value g.Keys } }

/-- Assignment `c.Request = req`. -/
def setRequest (c : Nat) (req : Request) : M Unit := fun w =>
  match w.gins[c]? with
  | none => .panic nilDeref w
  | some g => .ok () { w with gins := w.gins.set c { g with Request := req } }

/-- Go `(*gin.Context).Next`: the remaining handlers run on the context as it is now. -/
def Next (c : Nat) : M Unit := do
  let g ← get c
  emit (.Next g)

end gin

/-- Go `(*http.Request).WithContext`. -/
def Request.WithContext (req : Request) (ctx : Ctx) : Request := { req with ctx := ctx }

namespace http

/-- Constant `defaultComponentName`. -/
def defaultComponentName : String := "net/http"

/-- Go `http.TraceTransport`; a nil `RoundTripper` is `none`. -/
structure TraceTransport where
  internalTags : List Tag
  peerService : String
  RoundTripper : Option RoundTripper

/-- Go `http.Tracer`, the sub-event recorder. -/
structure Tracer where
  tr : trace.Tracer
  deriving DecidableEq, Repr

/-- Go `httptrace.WithClientTrace` with the hooks of `(*Tracer).ClientTrace`. -/
def WithClientTrace (ctx : Ctx) (clientTrace : Tracer) : Ctx :=
  .withValue ctx .clientEventContextKey (.clientTrace clientTrace.tr)

/-- Method `Close` of a response body; for a `closeTracker` this is Go `closeTracker.Close`. -/
def Close (env : Env) : Body → M (Option GoError)
  | .raw id => do
    emit (.BodyClose id)
    return env.bodyClose id
  | .closeTracker rc tr => do
    let err ← Close env rc
    let tr1 ← tr.SetLog [trace.LogString trace.LogEvent "ClosedBody"]
    tr1.Finish (some err)
    return err

/-- Go `http.Trace`, the middleware body, run on the gin context named `c`. -/
def Trace (env : Env) (c : Nat) : M Unit := do
  let cx := c
  let g ← gin.get c
  let w ← getWorld
  let r ← trace.Extract env .HTTPHeaders (mapContents w g.Request.Header)
  let t ←
    match r with
    | .error _ => trace.StartSpan g.Request.URL.Path []
    | .ok spanCtx => trace.StartSpan g.Request.URL.Path [.RPCServerOption spanCtx]
  let t ← t.SetTag [trace.Tag trace.TagComponent (.str defaultComponentName)]
  let t ← t.SetTag [trace.Tag trace.TagHTTPMethod (.str g.Request.Method)]
  let t ← t.SetTag [trace.Tag trace.TagHTTPURL (.str g.Request.URL.String)]
  let reqCtx := trace.ContextWithSpan (.gin cx) t.GetSpan
  let w1 ← getWorld
  let reqCtx1 := if !w1.DisableClientTrace then WithClientTrace reqCtx { tr := t } else reqCtx
  gin.Set cx trace.CtxKey (opentracing.spanVal t.GetSpan)
  let g1 ← gin.get cx
  gin.setRequest cx (g1.Request.WithContext reqCtx1)
  gin.Next cx
  t.Finish none

/-- The call `rt.RoundTrip(req)` on the underlying transport. -/
def callRoundTrip (rt : RoundTripper) (req : Request) :
    M (Option Response × Option GoError) := fun w =>
  .ok (rt w req) { w with events := w.events ++ [.RoundTrip req] }

/-- Go `(*TraceTransport).RoundTrip`. -/
def TraceTransport.RoundTrip (env : Env) (t : TraceTransport) (req : Request) :
    M (Option Response × Option GoError) := do
  let rt :=
    match t.RoundTripper with
    | some rt => rt
    | none => env.DefaultTransport
  let (tr, ok) ← trace.StartSpanFromContext req.ctx ("Client-HTTP:" ++ req.Method) []
  if !ok then
    callRoundTrip rt req
  else
    let tr ← tr.SetTag [trace.Tag trace.TagComponent (.str defaultComponentName)]
    let tr ← tr.SetTag [trace.Tag trace.TagHTTPMethod (.str req.Method)]
    let tr ← tr.SetTag [trace.Tag trace.TagHTTPURL (.str req.URL.String)]
    let tr ← tr.SetTag [trace.Tag trace.TagSpanKind (.str "client")]
    let tr ←
      if t.peerService ≠ "" then tr.SetTag [trace.Tag trace.TagPeerService (.str t.peerService)]
      else pure tr
    let tr ← if t.internalTags.length > 0 then tr.SetTag t.internalTags else pure tr
    let _ ← tr.Inject env .HTTPHeaders (opentracing.HTTPHeadersCarrier.Set env req.Header)
    let (resp, err) ← callRoundTrip rt req
    match err with
    | some _ =>
      let tr ← tr.SetTag [trace.Tag trace.TagError (.bool true)]
      tr.Finish (some err)
      return (resp, err)
    | none =>
      match resp with
      | none => goPanic nilDeref
      | some resp =>
        let tr ← tr.SetTag [trace.Tag trace.TagHTTPStatusCode (.int resp.StatusCode)]
        let tr ←
          if resp.StatusCode ≥ 500 then tr.SetTag [trace.Tag trace.TagError (.bool true)]
          else pure tr
        if req.Method = "HEAD" then
          tr.Finish none
          return (some resp, none)
        else
          return (some { resp with Body := .closeTracker resp.Body tr }, none)

end http

namespace metadata

/-- Go `metadata.FromIncomingContext`: the map stored under the incoming key, if any. -/
def FromIncomingContext (w : World) (ctx : Ctx) : Option Nat :=
  match ctx.Value w .mdIncomingKey with
  | .md ref => some ref
  | _ => none

/-- Go `metadata.FromOutgoingContext`: the map stored under the outgoing key, if any.  The
map itself is returned, not a copy; library releases differ in whether the result is the
stored map or a rebuilt one, and the stored map is the case in which a write to the result
would reach the caller. -/
def FromOutgoingContext (w : World) (ctx : Ctx) : Option Nat :=
  match ctx.Value w .mdOutgoingKey with
  | .md ref => some ref
  | _ => none

/-- Go `metadata.New(nil)`: a new empty map. -/
def New : M Nat := mapAlloc []

/-- Go `MD.Copy`: a new map with the same keys and value lists. -/
def Copy (md : Nat) : M Nat := do
  let w ← getWorld
  mapAlloc (mapContents w md)

/-- Go `metadata.NewOutgoingContext`. -/
def NewOutgoingContext (ctx : Ctx) (md : Nat) : Ctx :=
  .withValue ctx .mdOutgoingKey (.md md)

end metadata

namespace rpc

/-- Go `MDReaderWriter.Set` on the map named `md`; the key is lower-cased with
`strings.ToLower`. -/
def MDReaderWriter.Set (env : Env) (md : Nat) (key val : String) : M Unit := do
  let key := env.ToLower key
  let w ← getWorld
  mapAssign md key (mapIndex w md key ++ [val])

/-- Go `grpc.UnaryServerInfo`. -/
structure UnaryServerInfo where
  FullMethod : String
  deriving DecidableEq, Repr

/-- Go `grpc.UnaryHandler`: response and error for a context and request. -/
abbrev UnaryHandler := World → Ctx → Value → Value × Option GoError

/-- Go `grpc.UnaryInvoker`: error for a context, method and request. -/
abbrev UnaryInvoker := World → Ctx → String → Value → Option GoError

/-- The call `handler(ctx, req)`. -/
def callHandler (handler : UnaryHandler) (ctx : Ctx) (req : Value) :
    M (Value × Option GoError) := fun w =>
  .ok (handler w ctx req) { w with events := w.events ++ [.Handler ctx] }

/-- The call `invoker(ctx, method, req, reply, cc, opts...)`. -/
def callInvoker (invoker : UnaryInvoker) (ctx : Ctx) (method : String) (req : Value) :
    M (Option GoError) := fun w =>
  .ok (invoker w ctx method req) { w with events := w.events ++ [.Invoker ctx method] }

/-- Go `OpentracingServerInterceptor(t)`, the interceptor body. -/
def OpentracingServerInterceptor (env : Env) (t : trace.Tracer) (ctx : Ctx) (req : Value)
    (info : UnaryServerInfo) (handler : UnaryHandler) : M (Value × Option GoError) := do
  let w ← getWorld
  let md ←
    match metadata.FromIncomingContext w ctx with
    | some md => pure md
    | none => metadata.New
  let tag := trace.Tag trace.TagComponent (.str "gRPC")
  let w1 ← getWorld
  let r ← t.Extract env .TextMap (mapContents w1 md)
  let t ←
    match r with
    | .error _ => t.StartSpan info.FullMethod [.Tag tag]
    | .ok spanCtx =>
      t.StartSpan info.FullMethod [.RPCServerOption spanCtx, .Tag tag, .Tag ext.SpanKindRPCServer]
  withDefer (t.Finish none) do
    let ctx1 := Ctx.withValue ctx (.str trace.CtxKey) (opentracing.spanVal t.GetSpan)
    callHandler handler ctx1 req

/-- Go `OpentracingClientInterceptor(t)`, the interceptor body. -/
def OpentracingClientInterceptor (env : Env) (t : trace.Tracer) (ctx : Ctx) (method : String)
    (req : Value) (invoker : UnaryInvoker) : M (Option GoError) := do
  let (tr, _) ← t.StartSpanFromContext ctx method [.Tag ext.SpanKindRPCClient]
  let tr ← tr.SetTag [trace.Tag trace.TagComponent (.str "gRPC")]
  let w ← getWorld
  let md ←
    match metadata.FromOutgoingContext w ctx with
    | none => metadata.New
    | some md => metadata.Copy md
  let err ← tr.Inject env .TextMap (MDReaderWriter.Set env md)
  let tr ←
    match err with
    | some _ => tr.SetTag [trace.Tag trace.TagError (.bool true)]
    | none => pure tr
  let ctx1 := metadata.NewOutgoingContext ctx md
  let err ← callInvoker invoker ctx1 method req
  let tr ←
    match err with
    | some e => tr.SetTag [trace.Tag trace.TagError (.str e.Error)]
    | none => pure tr
  tr.Finish (some err)
  return err

end rpc

namespace redis

/-- Go `redis.Nil`, the key-not-found error value. -/
def Nil : GoError := { dynType := "proto.RedisError", msg := "redis: nil" }

end redis

namespace cache

/-- Go `setTags`. -/
def setTags (tr : trace.Tracer) : M trace.Tracer := do
  let tr ← tr.SetTag [trace.Tag trace.TagPeerService (.str "redis")]
  let tr ← tr.SetTag [trace.Tag trace.TagComponent (.str "cache/redis")]
  tr.SetTag [trace.Tag trace.TagSpanKind (.str "client")]

/-- Go `recordError`; the updated Tracer is returned. -/
def recordError (_ctx : Ctx) (t : trace.Tracer) (err : GoError) : M trace.Tracer := do
  if err ≠ redis.Nil then
    let t ← t.SetTag [trace.Tag trace.TagError (.bool true)]
    t.SetLog [trace.LogString trace.LogEvent "redis error",
      trace.LogString trace.LogMessage err.Error]
  else
    pure t

/-- Go `TracingHook.BeforeProcess`. -/
def BeforeProcess (ctx : Ctx) (cmd : Cmder) : M (Ctx × Option GoError) := do
  let (tr, ok) ← trace.StartSpanFromContextV2 ctx ("Redis:" ++ cmd.FullName) []
  if !ok then
    return (ctx, none)
  else
    let tr ← setTags tr
    let tr ← tr.SetTag [trace.Tag trace.TagDBStatement (.str cmd.CmdString)]
    return (tr.ContextWithSpan ctx, none)

/-- Go `TracingHook.AfterProcess`. -/
def AfterProcess (ctx : Ctx) (cmd : Cmder) : M (Option GoError) := do
  let (tr, ok) ← trace.SpanFromContext ctx
  if !ok then
    return none
  else
    withDefer (tr.Finish (some none)) do
      match cmd.Err with
      | some err =>
        let _ ← recordError ctx tr err
        return none
      | none => return none

/-- Go `TracingHook.BeforeProcessPipeline`. -/
def BeforeProcessPipeline (env : Env) (ctx : Ctx) (cmds : List Cmder) :
    M (Ctx × Option GoError) := do
  let (tr, ok) ← trace.StartSpanFromContextV2 ctx "Redis:Pipeline" []
  if !ok then
    return (ctx, none)
  else
    let tr ← setTags tr
    let cmdsString := env.CmdsString cmds
    let tr ← tr.SetTag [trace.Tag trace.TagDBStatement (.str cmdsString)]
    let tr ← tr.SetTag [trace.Tag "db.redis.num_cmd" (.int cmds.length)]
    return (tr.ContextWithSpan ctx, none)

/-- Go `TracingHook.AfterProcessPipeline`; indexing an empty command list panics. -/
def AfterProcessPipeline (ctx : Ctx) (cmds : List Cmder) : M (Option GoError) := do
  let (span, ok) ← trace.SpanFromContext ctx
  if !ok then
    return none
  else
    withDefer (span.Finish (some none)) do
      match cmds with
      | [] => goPanic "index out of range [0] with length 0"
      | cmd0 :: _ =>
        match cmd0.Err with
        | some err =>
          let _ ← recordError ctx span err
          return none
        | none => return none

end cache

namespace orm

/-- Constant `gormSpanKey`. -/
def gormSpanKey : String := "__gorm_span"

/-- A value of the per-statement side-table (a Go `interface{}`): a `trace.Tracer` or
something else. -/
inductive Any where
  | tracer (t : trace.Tracer)
  | other (v : Value)
  deriving DecidableEq, Repr

/-- Go `gorm.Statement`, reduced to context, SQL text and the settings table; `ptr` is the
text `%p` prints for the statement. -/
structure Statement where
  Context : Ctx
  SQL : String
  Settings : List (String × Any)
  ptr : String
  deriving DecidableEq, Repr

/-- Go `gorm.DB`, reduced to the statement and the error. -/
structure DB where
  Statement : Statement
  Error : Option GoError
  deriving DecidableEq, Repr

/-- Go `(*gorm.DB).InstanceSet`: store under the statement pointer text followed by the key. -/
def DB.InstanceSet (db : DB) (key : String) (value : Any) : DB :=
  { db with Statement := { db.Statement with
      Settings := assocSet (db.Statement.ptr ++ key) value db.Statement.Settings } }

/-- Go `(*gorm.DB).InstanceGet`: the value and whether it was present. -/
def DB.InstanceGet (db : DB) (key : String) : Option Any :=
  assocGet (db.Statement.ptr ++ key) db.Statement.Settings

/-- Go `before`; the statement is returned as left by the callback. -/
def before (db : DB) : M DB := do
  let (tr, ok) ← trace.StartSpanFromContextV2 db.Statement.Context "gorm" []
  if !ok then
    return db
  else
    let tr ← tr.SetTag [trace.Tag trace.TagPeerService (.str "database")]
    let tr ← tr.SetTag [trace.Tag trace.TagSpanKind (.str "client")]
    let tr ← tr.SetTag [trace.Tag trace.TagComponent (.str "db/gorm")]
    let tr ← tr.SetTag [trace.Tag trace.TagDBType (.str "sql")]
    return db.InstanceSet gormSpanKey (.tracer tr)

/-- Go `after`; the statement is returned as left by the callback. -/
def after (env : Env) (db : DB) : M DB := do
  match db.InstanceGet gormSpanKey with
  | none => return db
  | some val =>
    match val with
    | .other _ => return db
    | .tracer tr =>
      let tr ← tr.SetTag [trace.Tag trace.TagDBStatement (.str (env.ToLower db.Statement.SQL))]
      match db.Error with
      | some e =>
        let tr ← tr.SetLog [trace.LogBool trace.TagError true,
          trace.LogString trace.LogMessage e.Error]
        tr.Finish (some db.Error)
        return db
      | none =>
        tr.Finish none
        return db

end orm

/-! ## Vocabulary for stating results -/

/-- The world with further calls appended to the record. -/
def World.addEvents (w : World) (es : List Event) : World :=
  { w with events := w.events ++ es }

/-- The event is a `StartSpan` call. -/
def Event.isStartSpan : Event → Bool
  | .StartSpan _ _ _ _ => true
  | _ => false

/-- The event is a `Finish` call. -/
def Event.isFinish : Event → Bool
  | .Finish _ => true
  | _ => false

/-- The event is a `LogFields` call. -/
def Event.isLogFields : Event → Bool
  | .LogFields _ _ => true
  | _ => false

/-- The event sets the tag `trace.TagError` on some span. -/
def Event.isErrorTag : Event → Bool
  | .SetTag _ key _ => key = trace.TagError
  | _ => false

/-- The event is a call of a host callback: next handler, transport, RPC handler or invoker. -/
def Event.isHostCall : Event → Bool
  | .Next _ => true
  | .RoundTrip _ => true
  | .Handler _ => true
  | .Invoker _ _ => true
  | _ => false

/-- The span found by the lookup order of `StartSpanFromContext`: the natively associated
span if there is one, else the span under the generic key. -/
def parentSpan (w : World) (ctx : Ctx) : Option SpanId :=
  match opentracing.SpanFromContext w ctx with
  | some p => some p
  | none =>
    match ctx.Value w (.str trace.CtxKey) with
    | .span g => some g
    | _ => none

/-- Contents of a header map after the `Set` calls `writes` of `HTTPHeadersCarrier`. -/
def headerAfter (env : Env) (m : StringsMap) (writes : List (String × String)) : StringsMap :=
  writes.foldl (fun acc kv => assocSet (env.CanonicalMIMEHeaderKey kv.1) [kv.2] acc) m

/-- Contents of a metadata map after the `Set` calls `writes` of `MDReaderWriter`: each value
is appended last to the list under the lower-cased key. -/
def mdAfter (env : Env) (m : StringsMap) (writes : List (String × String)) : StringsMap :=
  writes.foldl
    (fun acc kv =>
      assocSet (env.ToLower kv.1)
        (((assocGet (env.ToLower kv.1) acc).getD []) ++ [kv.2]) acc) m

/-- A Tracer on span `s` as `trace.NewWithTrace` builds it. -/
def freshTracer (s : SpanId) : trace.Tracer := trace.NewWithTrace (some 0) (some s)

/-- A world with an initialised global tracer, an empty call record and empty heaps. -/
def emptyWorld : World :=
  { events := [], nextSpan := 1, _tracer := some 0, DisableClientTrace := false,
    maps := [], gins := [] }

/-- One tag per call, with keys `k`, `kk`, `kkk`, ... -/
def oneTagCalls (n : Nat) : List (List Tag) :=
  (List.range n).map fun i => [trace.Tag (String.mk (List.replicate (i + 1) 'k')) (.int i)]

/-- A call argument of `n` tags. -/
def manyTags (n : Nat) : List Tag :=
  (List.range n).map fun i => trace.Tag (String.mk (List.replicate (i + 1) 'k')) (.int i)

/-- A call argument of `n` log fields. -/
def manyFields (n : Nat) : List Field :=
  (List.range n).map fun i => trace.LogString (String.mk (List.replicate (i + 1) 'f')) "v"

/-- Contents of the incoming metadata the RPC server interceptor hands to `Extract`: the map
under the incoming key, or a new empty map. -/
def incomingContents (w : World) (ctx : Ctx) : StringsMap :=
  match metadata.FromIncomingContext w ctx with
  | some md => mapContents w md
  | none => []

/-- Lower-casing of the letters `A` to `Z`, which is what Go `strings.ToLower` does on ASCII
text; the example environments below are applied to ASCII text only. -/
def lowerASCII (s : String) : String := String.mk (s.data.map Char.toLower)

/-- An environment whose backend finds no trace header and injects one header. -/
def envNotFound : Env :=
  { Extract := fun _ _ _ => .error { dynType := "*errors.errorString", msg := "not found" }
    Inject := fun _ _ => ([("Uber-Trace-Id", "1:1:0:1")], none)
    CanonicalMIMEHeaderKey := fun k => k
    ToLower := lowerASCII
    DefaultTransport := fun _ _ =>
      (none, some { dynType := "*net.OpError", msg := "connection refused" })
    bodyClose := fun _ => none
    CmdsString := fun _ => "" }

/-- An environment whose backend decodes the remote context 9 from every carrier. -/
def envFound : Env :=
  { Extract := fun _ _ _ => .ok (.remote 9)
    Inject := fun _ _ => ([("Uber-Trace-Id", "1:1:0:1")], none)
    CanonicalMIMEHeaderKey := fun k => k
    ToLower := lowerASCII
    DefaultTransport := fun _ _ => (some { StatusCode := 200, Body := .raw 0 }, none)
    bodyClose := fun _ => none
    CmdsString := fun _ => "" }

/-- A GET request for `/hello` with header map 0 and the background context. -/
def helloRequest : Request :=
  { Method := "GET", URL := { Path := "/hello", String := "/hello?x=1" }, Header := 0,
    ctx := .background }

/-- A world with an initialised tracer, one empty header map and one gin context holding
`helloRequest`. -/
def serverWorld : World :=
  { events := [], nextSpan := 1, _tracer := some 0, DisableClientTrace := false,
    maps := [[]], gins := [{ Keys := [], Request := helloRequest }] }

/-- A context with span 3 natively associated and span 5 under the generic key. -/
def ctxBoth : Ctx :=
  .withValue (.withValue .background (.str trace.CtxKey) (.span 5)) .activeSpanKey (.span 3)

/-- A handler that answers every call with the same response and no error. -/
def okHandler : rpc.UnaryHandler := fun _ _ _ => (.str "reply", none)

/-- Values written under key `k` by the `Set` calls `writes` of `MDReaderWriter`, in call
order. -/
def writtenUnder (env : Env) (k : String) (writes : List (String × String)) : List String :=
  (writes.filter fun kv => env.ToLower kv.1 = k).map fun kv => kv.2

/-- Contents of the outgoing metadata of a context: the map under the outgoing key, or
nothing. -/
def outgoingContents (w : World) (ctx : Ctx) : StringsMap :=
  match metadata.FromOutgoingContext w ctx with
  | some md => mapContents w md
  | none => []

/-- Child-of option for the parent found by the lookup order native, then generic key. -/
def childOfParent (w : World) (ctx : Ctx) : List StartSpanOption :=
  match parentSpan w ctx with
  | some p => [.ChildOf (.ofSpan p)]
  | none => []

/-- The world in which the RPC client interceptor calls the invoker: the client span has
been started and tagged, and the new metadata map holds the copy with the injected entries. -/
def invokeWorld (env : Env) (w : World) (b : TracerRef) (ctx : Ctx) (method : String) : World :=
  { w with
    events := w.events ++
      ([.StartSpan b w.nextSpan method
          ([.Tag ext.SpanKindRPCClient] ++ childOfParent w ctx),
        .SetTag w.nextSpan trace.TagComponent (.str "gRPC")] ++
        match (env.Inject w.nextSpan .TextMap).2 with
        | some _ => [.SetTag w.nextSpan trace.TagError (.bool true)]
        | none => [])
    nextSpan := w.nextSpan + 1
    maps := w.maps ++
      [mdAfter env (outgoingContents w ctx) (env.Inject w.nextSpan .TextMap).1] }

/-- A world whose map 0 is an outgoing metadata map with one entry. -/
def clientWorld : World :=
  { events := [], nextSpan := 1, _tracer := some 0, DisableClientTrace := false,
    maps := [[("authorization", ["token"])]], gins := [] }

/-- A context whose outgoing metadata is map 0. -/
def ctxOutgoing : Ctx := .withValue .background .mdOutgoingKey (.md 0)

/-- An invoker that always succeeds. -/
def okInvoker : rpc.UnaryInvoker := fun _ _ _ _ => none

/-- A context with span 0 natively associated. -/
def ctxNative : Ctx := .withValue .background .activeSpanKey (.span 0)

/-- A command that failed with an error whose message is empty. -/
def cmdEmptyError : Cmder :=
  { FullName := "get", CmdString := "get k",
    Err := some { dynType := "*errors.errorString", msg := "" } }

/-- A command that failed with a connection error. -/
def cmdFailed : Cmder :=
  { FullName := "get", CmdString := "get k",
    Err := some { dynType := "*net.OpError", msg := "connection refused" } }

/-- A statement with an empty side-table. -/
def dbNoSpan : orm.DB :=
  { Statement :=
      { Context := .background
        SQL := "SELECT 1"
        Settings := []
        ptr := "0xc0" }
    Error := some { dynType := "*mysql.MySQLError", msg := "syntax error" } }

/-- A statement whose side-table holds a Tracer on span 0, failed with an error. -/
def dbFailed : orm.DB :=
  { Statement :=
      { Context := .background
        SQL := "SELECT * FROM User"
        Settings := [("0xc0__gorm_span", .tracer (freshTracer 0))]
        ptr := "0xc0" }
    Error := some { dynType := "*mysql.MySQLError", msg := "syntax error" } }

/-- The world in which `RoundTrip` calls the underlying transport for a request whose
context yields parent `p`: the client span has been started and tagged and the header map
holds the injected entries. -/
def transportWorld (env : Env) (w : World) (b : TracerRef) (t : http.TraceTransport)
    (req : Request) (p : SpanId) : World :=
  { w with
    events := w.events ++
      ([.StartSpan b w.nextSpan ("Client-HTTP:" ++ req.Method) [.ChildOf (.ofSpan p)],
        .SetTag w.nextSpan trace.TagComponent (.str "net/http"),
        .SetTag w.nextSpan trace.TagHTTPMethod (.str req.Method),
        .SetTag w.nextSpan trace.TagHTTPURL (.str req.URL.String),
        .SetTag w.nextSpan trace.TagSpanKind (.str "client")] ++
        (if t.peerService ≠ "" then
          [.SetTag w.nextSpan trace.TagPeerService (.str t.peerService)] else []) ++
        t.internalTags.map fun tag => Event.SetTag w.nextSpan tag.Key tag.Value)
    nextSpan := w.nextSpan + 1
    maps := w.maps.set req.Header
      (headerAfter env (mapContents w req.Header) (env.Inject w.nextSpan .HTTPHeaders).1) }

/-- The transport `RoundTrip` delegates to: the configured one, or the default. -/
def transportOf (env : Env) (t : http.TraceTransport) : RoundTripper :=
  match t.RoundTripper with
  | some rt => rt
  | none => env.DefaultTransport

/-- A transport that fails every call with a connection error. -/
def failingTransport : RoundTripper := fun _ _ =>
  (none, some { dynType := "*net.OpError", msg := "connection refused" })

/-- A GET request whose context carries span 5 under the generic key. -/
def clientRequest : Request :=
  { Method := "GET", URL := { Path := "/permit", String := "http://localhost:8888/permit" },
    Header := 0,
    ctx := .withValue .background (.str trace.CtxKey) (.span 5) }

/-- The calls `RoundTrip` makes from the transport call on, when the transport returns a
response with status `s` and no error. -/
def successEvents (n : SpanId) (req : Request) (s : Int) : List Event :=
  [.RoundTrip req, .SetTag n trace.TagHTTPStatusCode (.int s)] ++
    (if s ≥ 500 then [.SetTag n trace.TagError (.bool true)] else []) ++
    (if req.Method = "HEAD" then [.Finish n] else [])

/-- The calls `RoundTrip` makes before it calls the transport. -/
def preludeEvents (w : World) (b : TracerRef) (t : http.TraceTransport) (req : Request)
    (p : SpanId) : List Event :=
  [.StartSpan b w.nextSpan ("Client-HTTP:" ++ req.Method) [.ChildOf (.ofSpan p)],
    .SetTag w.nextSpan trace.TagComponent (.str "net/http"),
    .SetTag w.nextSpan trace.TagHTTPMethod (.str req.Method),
    .SetTag w.nextSpan trace.TagHTTPURL (.str req.URL.String),
    .SetTag w.nextSpan trace.TagSpanKind (.str "client")] ++
    (if t.peerService ≠ "" then
      [.SetTag w.nextSpan trace.TagPeerService (.str t.peerService)] else []) ++
    t.internalTags.map fun tag => Event.SetTag w.nextSpan tag.Key tag.Value

/-- A transport that answers every call with status 503 and body 0. -/
def unavailableTransport : RoundTripper := fun _ _ =>
  (some { StatusCode := 503, Body := .raw 0 }, none)

/-- The transport wrapper around `unavailableTransport`, with peer service `permit`. -/
def permitTransport : http.TraceTransport :=
  { internalTags := [], peerService := "permit", RoundTripper := some unavailableTransport }

/-- A Tracer holding a backend and no span, as passed to the RPC interceptors. -/
def backendTracer : trace.Tracer := { Trace := some 0, span := none, tags := [], maxLogs := 0 }

/-- An environment whose backend fails every `Inject` and whose transport answers with
status 200. -/
def envInjectFails : Env :=
  { Extract := fun _ _ _ => .error { dynType := "*errors.errorString", msg := "not found" }
    Inject := fun _ _ =>
      ([], some { dynType := "*errors.errorString", msg := "unsupported format" })
    CanonicalMIMEHeaderKey := fun k => k
    ToLower := lowerASCII
    DefaultTransport := fun _ _ => (some { StatusCode := 200, Body := .raw 0 }, none)
    bodyClose := fun _ => none
    CmdsString := fun _ => "" }

/-- The transport wrapper with no static tags around the default transport. -/
def plainTransport : http.TraceTransport :=
  { internalTags := [], peerService := "", RoundTripper := none }

namespace trace

/-- Go `trace.LogFields`: the one-element slice of a field. -/
def LogFields (field : Field) : List Field := [field]

end trace

namespace http

/-- Go `httptrace.GotConnInfo`, reduced to the flags the recorder reads. -/
structure GotConnInfo where
  Reused : Bool
  WasIdle : Bool
  deriving DecidableEq, Repr

/-- Go `httptrace.DNSStartInfo`. -/
structure DNSStartInfo where
  Host : String
  deriving DecidableEq, Repr

/-- Go `httptrace.DNSDoneInfo`; each address is given by the text of `addr.String()`. -/
structure DNSDoneInfo where
  Addrs : List String
  Err : Option GoError
  deriving DecidableEq, Repr

/-- Go `httptrace.WroteRequestInfo`. -/
structure WroteRequestInfo where
  Err : Option GoError
  deriving DecidableEq, Repr

/-- Go `NewClientTracer`: a recorder whose Tracer holds the global backend and no span. -/
def NewClientTracer (_req : Request) : M Tracer := do
  let tr ← trace.GetGlobalTracer
  return { tr := { Trace := tr, span := none, tags := [], maxLogs := 0 } }

/-- Go `(*Tracer).getConn`. -/
def Tracer.getConn (t : Tracer) (hostPort : String) : M Tracer := do
  let tr ← t.tr.SetLog [trace.LogString trace.LogEvent "GetConn",
    trace.LogString "hostPort" hostPort]
  return { tr := tr }

/-- Go `(*Tracer).gotConn`. -/
def Tracer.gotConn (t : Tracer) (info : GotConnInfo) : M Tracer := do
  let tr ← t.tr.SetTag [trace.Tag "net/http.reused" (.bool info.Reused)]
  let tr ← tr.SetTag [trace.Tag "net/http.was_idle" (.bool info.WasIdle)]
  let tr ← tr.SetLog [trace.LogString trace.LogEvent "GotConn"]
  return { tr := tr }

/-- Go `(*Tracer).putIdleConn`; the error argument is not read. -/
def Tracer.putIdleConn (t : Tracer) (_err : Option GoError) : M Tracer := do
  let tr ← t.tr.SetLog [trace.LogString trace.LogEvent "PutIdleConn"]
  return { tr := tr }

/-- Go `(*Tracer).gotFirstResponseByte`. -/
def Tracer.gotFirstResponseByte (t : Tracer) : M Tracer := do
  let tr ← t.tr.SetLog [trace.LogString trace.LogEvent "GotFirstResponseByte"]
  return { tr := tr }

/-- Go `(*Tracer).got100Continue`. -/
def Tracer.got100Continue (t : Tracer) : M Tracer := do
  let tr ← t.tr.SetLog [trace.LogString trace.LogEvent "Got100Continue"]
  return { tr := tr }

/-- Go `(*Tracer).dnsStart`. -/
def Tracer.dnsStart (t : Tracer) (info : DNSStartInfo) : M Tracer := do
  let tr ← t.tr.SetLog [trace.LogString trace.LogEvent "DNSStart",
    trace.LogString "host" info.Host]
  return { tr := tr }

/-- The log fields `dnsDone` builds: the event, one field per address, and the error text
when there is an error. -/
def dnsDoneFields (info : DNSDoneInfo) : List Field :=
  let fields := trace.LogFields (trace.LogString trace.LogEvent "DNSDone")
  let fields1 := fields ++ info.Addrs.map fun addr => trace.LogString trace.LogAddr addr
  match info.Err with
  | some e => fields1 ++ [trace.LogString trace.LogErrorObject e.Error]
  | none => fields1

/-- Go `(*Tracer).dnsDone`. -/
def Tracer.dnsDone (t : Tracer) (info : DNSDoneInfo) : M Tracer := do
  let tr ← t.tr.SetLog (dnsDoneFields info)
  return { tr := tr }

/-- Go `(*Tracer).connectStart`. -/
def Tracer.connectStart (t : Tracer) (network addr : String) : M Tracer := do
  let tr ← t.tr.SetLog [trace.LogString trace.LogEvent "ConnectStart",
    trace.LogString trace.LogNetwork network,
    trace.LogString trace.LogAddr addr]
  return { tr := tr }

/-- Go `(*Tracer).connectDone`. -/
def Tracer.connectDone (t : Tracer) (network addr : String) (err : Option GoError) :
    M Tracer := do
  match err with
  | some e =>
    let tr ← t.tr.SetLog [trace.LogString trace.LogMessage "ConnectDone",
      trace.LogString trace.LogNetwork network,
      trace.LogString trace.LogAddr addr,
      trace.LogString trace.LogEvent "error",
      trace.LogString trace.LogErrorObject e.Error]
    return { tr := tr }
  | none =>
    let tr ← t.tr.SetLog [trace.LogString trace.LogEvent "ConnectDone",
      trace.LogString trace.LogNetwork network,
      trace.LogString trace.LogAddr addr]
    return { tr := tr }

/-- Go `(*Tracer).wroteHeaders`. -/
def Tracer.wroteHeaders (t : Tracer) : M Tracer := do
  let tr ← t.tr.SetLog [trace.LogString trace.LogEvent "WroteHeaders"]
  return { tr := tr }

/-- Go `(*Tracer).wait100Continue`. -/
def Tracer.wait100Continue (t : Tracer) : M Tracer := do
  let tr ← t.tr.SetLog [trace.LogString trace.LogEvent "Wait100Continue"]
  return { tr := tr }

/-- Go `(*Tracer).wroteRequest`. -/
def Tracer.wroteRequest (t : Tracer) (info : WroteRequestInfo) : M Tracer := do
  match info.Err with
  | some e =>
    let tr ← t.tr.SetLog [trace.LogString trace.LogMessage "WroteRequest",
      trace.LogString trace.LogEvent "error",
      trace.LogString trace.LogErrorObject e.Error]
    let tr ← tr.SetTag [trace.Tag trace.TagError (.bool true)]
    return { tr := tr }
  | none =>
    let tr ← t.tr.SetLog [trace.LogString trace.LogEvent "WroteRequest"]
    return { tr := tr }

end http

/-- A sub-event recorder on span 0, as the middleware builds it. -/
def recorderOnSpan : http.Tracer := { tr := freshTracer 0 }

/-- An error as a failed dial reports it. -/
def dialError : GoError := { dynType := "*net.OpError", msg := "connection refused" }

namespace rpc

/-- The inner loop of `ForeachKey` over the values of one key: the handler calls made, in
order, and the error that stopped the loop, if any. -/
def foreachVals (handler : String → String → Option GoError) (k : String) :
    List String → List (String × String) × Option GoError
  | [] => ([], none)
  | v :: rest =>
    match handler k v with
    | some err => ([(k, v)], some err)
    | none => ((k, v) :: (foreachVals handler k rest).1, (foreachVals handler k rest).2)

/-- The outer loop of `ForeachKey` over the entries of the map, in the order of the
association list (Go leaves the order of map iteration unspecified). -/
def foreachEntries (handler : String → String → Option GoError) :
    StringsMap → List (String × String) × Option GoError
  | [] => ([], none)
  | (k, vals) :: rest =>
    match (foreachVals handler k vals).2 with
    | some err => ((foreachVals handler k vals).1, some err)
    | none =>
      ((foreachVals handler k vals).1 ++ (foreachEntries handler rest).1,
        (foreachEntries handler rest).2)

/-- Go `MDReaderWriter.ForeachKey` on the map named `md`: the handler calls made, in order,
and the error returned. -/
def MDReaderWriter.ForeachKey (w : World) (md : Nat)
    (handler : String → String → Option GoError) : List (String × String) × Option GoError :=
  foreachEntries handler (mapContents w md)

end rpc

/-- All key-value pairs of a map: for each entry, its values in list order. -/
def allPairs : StringsMap → List (String × String)
  | [] => []
  | (k, vals) :: rest => (vals.map fun v => (k, v)) ++ allPairs rest

/-- The keys of a map. -/
def keysOf (m : StringsMap) : List String := m.map fun kv => kv.1

/-- A handler that accepts every pair. -/
def acceptAll : String → String → Option GoError := fun _ _ => none

/-- One loop over a flat list of pairs that stops at the first call the handler fails: the
calls made and the error returned. -/
def callsUntilError (handler : String → String → Option GoError) :
    List (String × String) → List (String × String) × Option GoError
  | [] => ([], none)
  | p :: rest =>
    match handler p.1 p.2 with
    | some err => ([p], some err)
    | none => (p :: (callsUntilError handler rest).1, (callsUntilError handler rest).2)

/-- A handler that rejects every pair. -/
def rejectAll : String → String → Option GoError := fun _ _ =>
  some { dynType := "*errors.errorString", msg := "stop" }

/-- A world whose map 0 holds one key with one value. -/
def singleKeyWorld : World :=
  { events := [], nextSpan := 1, _tracer := some 0, DisableClientTrace := false,
    maps := [[("a", ["1"])]], gins := [] }

/-- A command that succeeded. -/
def cmdOk : Cmder := { FullName := "get", CmdString := "get k", Err := none }

/-- An invoker that fails every call. -/
def failingInvoker : rpc.UnaryInvoker := fun _ _ _ _ =>
  some { dynType := "*status.Error", msg := "unavailable" }

/-- The tag the RPC client interceptor sets after the invoker returned `err`: the error
key with the message of `err`, nothing for nil. -/
def invokerErrorEvents (s : SpanId) : Option GoError → List Event
  | some e => [.SetTag s trace.TagError (.str e.Error)]
  | none => []

/-- The backend calls of a cache `BeforeProcess` that found parent span `g`. -/
def cacheStartEvents (b : TracerRef) (n g : SpanId) (cmd : Cmder) : List Event :=
  [.StartSpan b n ("Redis:" ++ cmd.FullName) [.ChildOf (.ofSpan g)],
   .SetTag n trace.TagPeerService (.str "redis"),
   .SetTag n trace.TagComponent (.str "cache/redis"),
   .SetTag n trace.TagSpanKind (.str "client"),
   .SetTag n trace.TagDBStatement (.str cmd.CmdString)]

/-! ## Running computations -/

@[simp] theorem run_pure {α : Type} (a : α) (w : World) : (pure a : M α).run w = .ok a w := rfl

@[simp] theorem run_bind {α β : Type} (m : M α) (f : α → M β) (w : World) :
    (m >>= f).run w =
      match m.run w with
      | .ok a w1 => (f a).run w1
      | .panic msg w1 => .panic msg w1 := rfl

@[simp] theorem run_getWorld (w : World) : getWorld.run w = .ok w w := rfl

@[simp] theorem run_emit (e : Event) (w : World) :
    (emit e).run w = .ok () (w.addEvents [e]) := rfl

@[simp] theorem run_goPanic {α : Type} (msg : String) (w : World) :
    (goPanic msg : M α).run w = .panic msg w := rfl

@[simp] theorem run_GetGlobalTracer (w : World) :
    trace.GetGlobalTracer.run w = .ok w._tracer w := rfl

@[simp] theorem addEvents_nil (w : World) : w.addEvents [] = w := by
  simp [World.addEvents]

@[simp] theorem addEvents_addEvents (w : World) (a b : List Event) :
    (w.addEvents a).addEvents b = w.addEvents (a ++ b) := by
  simp [World.addEvents]

@[simp] theorem newEvents_addEvents (w : World) (es : List Event) :
    newEvents w (w.addEvents es) = es := by
  simp [newEvents, World.addEvents]

@[simp] theorem addEvents_tracer (w : World) (es : List Event) :
    (w.addEvents es)._tracer = w._tracer := rfl

@[simp] theorem addEvents_maps (w : World) (es : List Event) :
    (w.addEvents es).maps = w.maps := rfl

@[simp] theorem addEvents_gins (w : World) (es : List Event) :
    (w.addEvents es).gins = w.gins := rfl

@[simp] theorem addEvents_nextSpan (w : World) (es : List Event) :
    (w.addEvents es).nextSpan = w.nextSpan := rfl

@[simp] theorem addEvents_disable (w : World) (es : List Event) :
    (w.addEvents es).DisableClientTrace = w.DisableClientTrace := rfl

/-! ## The span wrapper -/

theorem spanSetTags_run (s : SpanId) (tags : List Tag) (w : World) :
    (trace.spanSetTags (some s) tags).run w
      = .ok () (w.addEvents (tags.map fun tag => Event.SetTag s tag.Key tag.Value)) := by
  induction tags generalizing w with
  | nil => simp [trace.spanSetTags]
  | cons tag rest ih =>
    simp [trace.spanSetTags, opentracing.Span.SetTag, ih]

/-- Effect of one `SetTag` call on a Tracer holding a span: the cap test looks at the number
of tags of the call only. -/
theorem SetTag_run (t : trace.Tracer) (s : SpanId) (h : t.span = some s) (tags : List Tag)
    (w : World) :
    (t.SetTag tags).run w
      = .ok { t with tags :=
                if (tags.length : Int) < 128 then t.tags ++ tags
                else if (tags.length : Int) = 128 then
                  t.tags ++ [{ Key := "trace.error", Value := .str "too many tags" }]
                else t.tags }
          (w.addEvents (tags.map fun tag => Event.SetTag s tag.Key tag.Value)) := by
  obtain ⟨tr, sp, tg, ml⟩ := t
  simp only at h
  subst h
  simp only [trace.Tracer.SetTag, trace.maxTags]
  split_ifs with h1 h2 h2
  · omega
  · simp [spanSetTags_run]
  · simp [spanSetTags_run]
  · simp [spanSetTags_run]

/-- Effect of one `SetLog` call on a Tracer holding a span. -/
theorem SetLog_run (t : trace.Tracer) (s : SpanId) (h : t.span = some s) (logs : List Field)
    (w : World) :
    (t.SetLog logs).run w
      = .ok t (w.addEvents [Event.LogFields s
          (if t.maxLogs + (logs.length : Int) < 256 then logs
           else [trace.LogString "trace.error" "too many logs"])]) := by
  simp only [trace.Tracer.SetLog, trace.maxLogs]
  split_ifs with h1 <;> simp [h, opentracing.Span.LogFields]

/-- Effect of one `Finish` call on a Tracer holding a span. -/
theorem Finish_run (t : trace.Tracer) (s : SpanId) (h : t.span = some s)
    (e : Option (Option GoError)) (w : World) :
    (t.Finish e).run w = .ok () (w.addEvents [Event.Finish s]) := by
  simp [trace.Tracer.Finish, h, opentracing.Span.Finish]

theorem SetTagCalls_small (calls : List (List Tag)) (hc : ∀ c ∈ calls, c.length < 128)
    (t : trace.Tracer) (s : SpanId) (h : t.span = some s) (w : World) :
    (t.SetTagCalls calls).run w
      = .ok { t with tags := t.tags ++ calls.flatten }
          (w.addEvents (calls.flatten.map fun tag => Event.SetTag s tag.Key tag.Value)) := by
  induction calls generalizing t w with
  | nil => obtain ⟨tr, sp, tg, ml⟩ := t; simp [trace.Tracer.SetTagCalls]
  | cons c rest ih =>
    have hc1 : c.length < 128 := hc c (List.mem_cons_self _ _)
    have hc2 : ∀ c ∈ rest, c.length < 128 := fun c hm => hc c (List.mem_cons_of_mem _ hm)
    have hlt : ((c.length : Int) < 128) := by omega
    simp [trace.Tracer.SetTagCalls, SetTag_run t s h, hlt]
    rw [ih hc2 ⟨t.Trace, t.span, t.tags ++ c, t.maxLogs⟩ h]
    simp

theorem SetLogCalls_small (calls : List (List Field)) (hc : ∀ c ∈ calls, c.length < 256)
    (t : trace.Tracer) (s : SpanId) (h : t.span = some s) (h0 : t.maxLogs = 0) (w : World) :
    (t.SetLogCalls calls).run w
      = .ok t (w.addEvents (calls.map fun c => Event.LogFields s c)) := by
  induction calls generalizing w with
  | nil => simp [trace.Tracer.SetLogCalls]
  | cons c rest ih =>
    have hc1 : c.length < 256 := hc c (List.mem_cons_self _ _)
    have hc2 : ∀ c ∈ rest, c.length < 256 := fun c hm => hc c (List.mem_cons_of_mem _ hm)
    have hlt : ((c.length : Int) < 256) := by omega
    simp [trace.Tracer.SetLogCalls, SetLog_run t s h, h0, hlt, ih hc2]

@[simp] theorem SetTag_mk_run (tr : Option TracerRef) (s : SpanId) (tg : List Tag) (ml : Int)
    (tags : List Tag) (w : World) :
    (trace.Tracer.SetTag ⟨tr, some s, tg, ml⟩ tags).run w
      = .ok ⟨tr, some s,
              (if (tags.length : Int) < 128 then tg ++ tags
                else if (tags.length : Int) = 128 then
                  tg ++ [{ Key := "trace.error", Value := .str "too many tags" }]
                else tg), ml⟩
          (w.addEvents (tags.map fun tag => Event.SetTag s tag.Key tag.Value)) :=
  SetTag_run ⟨tr, some s, tg, ml⟩ s rfl tags w

@[simp] theorem SetLog_mk_run (tr : Option TracerRef) (s : SpanId) (tg : List Tag) (ml : Int)
    (logs : List Field) (w : World) :
    (trace.Tracer.SetLog ⟨tr, some s, tg, ml⟩ logs).run w
      = .ok ⟨tr, some s, tg, ml⟩ (w.addEvents [Event.LogFields s
          (if ml + (logs.length : Int) < 256 then logs
           else [trace.LogString "trace.error" "too many logs"])]) :=
  SetLog_run ⟨tr, some s, tg, ml⟩ s rfl logs w

@[simp] theorem Finish_mk_run (tr : Option TracerRef) (s : SpanId) (tg : List Tag) (ml : Int)
    (e : Option (Option GoError)) (w : World) :
    (trace.Tracer.Finish ⟨tr, some s, tg, ml⟩ e).run w
      = .ok () (w.addEvents [Event.Finish s]) :=
  Finish_run ⟨tr, some s, tg, ml⟩ s rfl e w

theorem oneTagCalls_small (n : Nat) : ∀ c ∈ oneTagCalls n, c.length < 128 := by
  intro c hc
  simp only [oneTagCalls, List.mem_map] at hc
  obtain ⟨i, _, rfl⟩ := hc
  simp

theorem oneTagCalls_flatten_length (n : Nat) : (oneTagCalls n).flatten.length = n := by
  simp [oneTagCalls, List.length_flatten, Function.comp_def]

/-! ## C1: the tag cap -/

/-- C1, evaluated on the code: the cap of `SetTag` is not enforced.  `SetTag` compares the
number of tags passed to the call, not the number of tags kept, with `maxTags`.  On a fresh
Tracer, 130 calls with one tag each leave 130 entries in the tag list (more than 129); one
call with 128 tags leaves only the sentinel in the list; and a later call with one tag still
appends to the list that holds the sentinel. -/
theorem C1_SetTag_cap_not_enforced :
    (((freshTracer 0).SetTagCalls (oneTagCalls 130)).run emptyWorld).val?.map
        (fun t => t.tags.length) = some 130
    ∧ (((freshTracer 0).SetTagCalls [manyTags 128]).run emptyWorld).val?.map
        (fun t => t.tags) = some [{ Key := "trace.error", Value := .str "too many tags" }]
    ∧ (((freshTracer 0).SetTagCalls [manyTags 128, [trace.Tag "late" (.bool true)]]).run
        emptyWorld).val?.map (fun t => t.tags)
        = some [{ Key := "trace.error", Value := .str "too many tags" },
                { Key := "late", Value := .bool true }] := by
  refine ⟨?_, ?_, ?_⟩
  · rw [SetTagCalls_small _ (oneTagCalls_small 130) _ 0 rfl]
    simp only [Res.val?, Option.map_some', freshTracer, trace.NewWithTrace, List.nil_append,
      oneTagCalls_flatten_length]
  · simp [trace.Tracer.SetTagCalls, manyTags, Res.val?, freshTracer, trace.NewWithTrace]
  · simp [trace.Tracer.SetTagCalls, manyTags, Res.val?, freshTracer, trace.NewWithTrace,
      trace.Tag]

/-! ## C2: the log cap -/

/-- C2, evaluated on the code: the cap of `SetLog` is not enforced.  The counter `t.maxLogs`
is never advanced, so the test only looks at the number of fields of the call.  On a fresh
Tracer, 258 calls with one field each record 258 ordinary log entries (more than 257), and
two calls with 256 fields each record the sentinel entry twice. -/
theorem C2_SetLog_cap_not_enforced :
    (newEvents emptyWorld
        (((freshTracer 0).SetLogCalls
          (List.replicate 258 [trace.LogString trace.LogEvent "tick"])).run emptyWorld).world)
      = List.replicate 258 (Event.LogFields 0 [trace.LogString trace.LogEvent "tick"])
    ∧ (newEvents emptyWorld
        (((freshTracer 0).SetLogCalls [manyFields 256, manyFields 256]).run emptyWorld).world)
      = [Event.LogFields 0 [trace.LogString "trace.error" "too many logs"],
         Event.LogFields 0 [trace.LogString "trace.error" "too many logs"]] := by
  refine ⟨?_, ?_⟩
  · rw [SetLogCalls_small _ _ _ 0 rfl rfl]
    · simp only [Res.world, newEvents_addEvents, List.map_replicate]
    · intro c hc
      rw [List.eq_of_mem_replicate hc]
      simp
  · simp [trace.Tracer.SetLogCalls, manyFields, Res.world, freshTracer, trace.NewWithTrace]

/-! ## C3: Finish called twice -/

/-- C3, counterexample: on a Tracer holding span 0, calling `Finish` twice does not leave
the world that calling it once leaves; the underlying span receives `Finish` two times. -/
theorem C3_Finish_twice_counterexample :
    ((freshTracer 0).Finish none >>= fun _ => (freshTracer 0).Finish none).run emptyWorld
        ≠ ((freshTracer 0).Finish none).run emptyWorld
    ∧ (newEvents emptyWorld
        (((freshTracer 0).Finish none >>= fun _ => (freshTracer 0).Finish none).run
          emptyWorld).world).count (Event.Finish 0) = 2 := by
  refine ⟨?_, ?_⟩
  · intro h
    have h2 := congrArg (fun r => r.world.events.length) h
    simp [freshTracer, trace.NewWithTrace, Res.world, World.addEvents, emptyWorld] at h2
  · simp [freshTracer, trace.NewWithTrace, Res.world]

/-- C3, amended: `Finish` never fails, does not read its error pointer, and on a Tracer
holding a span each call forwards exactly one `Finish` to the underlying span and changes
nothing else; two calls forward two. -/
theorem C3_Finish_forwards_each_call (t : trace.Tracer) (s : SpanId) (h : t.span = some s)
    (e1 e2 : Option (Option GoError)) (w : World) :
    (t.Finish e1).run w = .ok () (w.addEvents [Event.Finish s])
    ∧ (t.Finish e1 >>= fun _ => t.Finish e2).run w
        = .ok () (w.addEvents [Event.Finish s, Event.Finish s]) := by
  simp [Finish_run t s h]

/-- C3, amended claim at a concrete Tracer on span 7. -/
theorem C3_Finish_forwards_each_call_witness :
    ((freshTracer 7).Finish none).run emptyWorld
        = .ok () (emptyWorld.addEvents [Event.Finish 7])
    ∧ ((freshTracer 7).Finish none >>= fun _ => (freshTracer 7).Finish (some none)).run
          emptyWorld
        = .ok () (emptyWorld.addEvents [Event.Finish 7, Event.Finish 7]) :=
  C3_Finish_forwards_each_call (freshTracer 7) 7 rfl none (some none) emptyWorld

/-! ## Backend and heap steps -/

@[simp] theorem StartSpan_some_run (r : TracerRef) (name : String)
    (opts : List StartSpanOption) (w : World) :
    (opentracing.StartSpan (some r) name opts).run w
      = .ok w.nextSpan { w with
          events := w.events ++ [.StartSpan r w.nextSpan name opts]
          nextSpan := w.nextSpan + 1 } := rfl

@[simp] theorem New_run (span : Option SpanId) (w : World) :
    (trace.New span).run w
      = .ok { Trace := w._tracer, span := span, tags := [], maxLogs := 0 } w := rfl

@[simp] theorem withDefer_run {α : Type} (d : M Unit) (body : M α) (w : World) :
    (withDefer d body).run w =
      match body.run w with
      | .ok a w1 =>
        match d.run w1 with
        | .ok _ w2 => .ok a w2
        | .panic msg w2 => .panic msg w2
      | .panic msg w1 =>
        match d.run w1 with
        | .ok _ w2 => .panic msg w2
        | .panic msg2 w2 => .panic msg2 w2 := rfl

@[simp] theorem mapAlloc_run (m : StringsMap) (w : World) :
    (mapAlloc m).run w = .ok w.maps.length { w with maps := w.maps ++ [m] } := rfl

@[simp] theorem mapAssign_run (ref : Nat) (key : String) (vals : List String) (w : World) :
    (mapAssign ref key vals).run w =
      match w.maps[ref]? with
      | none => .panic "assignment to entry in nil map" w
      | some m => .ok () { w with maps := w.maps.set ref (assocSet key vals m) } := rfl

@[simp] theorem gin_get_run (c : Nat) (w : World) :
    (gin.get c).run w =
      match w.gins[c]? with
      | none => .panic nilDeref w
      | some g => .ok g w := rfl

@[simp] theorem gin_Set_run (c : Nat) (w : World) (key : String) (v : CtxVal) :
    (gin.Set c key v).run w =
      match w.gins[c]? with
      | none => .panic nilDeref w
      | some g =>
        .ok () { w with gins := w.gins.set c { g with Keys := assocSet key v g.Keys } } := rfl

@[simp] theorem gin_setRequest_run (c : Nat) (w : World) (req : Request) :
    (gin.setRequest c req).run w =
      match w.gins[c]? with
      | none => .panic nilDeref w
      | some g => .ok () { w with gins := w.gins.set c { g with Request := req } } := rfl

@[simp] theorem callHandler_run (handler : rpc.UnaryHandler) (ctx : Ctx) (req : Value)
    (w : World) :
    (rpc.callHandler handler ctx req).run w
      = .ok (handler w ctx req) { w with events := w.events ++ [.Handler ctx] } := rfl

@[simp] theorem callInvoker_run (invoker : rpc.UnaryInvoker) (ctx : Ctx) (method : String)
    (req : Value) (w : World) :
    (rpc.callInvoker invoker ctx method req).run w
      = .ok (invoker w ctx method req)
          { w with events := w.events ++ [.Invoker ctx method] } := rfl

@[simp] theorem callRoundTrip_run (rt : RoundTripper) (req : Request) (w : World) :
    (http.callRoundTrip rt req).run w
      = .ok (rt w req) { w with events := w.events ++ [.RoundTrip req] } := rfl

theorem trace_Extract_run (env : Env) (b : TracerRef) (w : World) (hb : w._tracer = some b)
    (f : Format) (m : StringsMap) :
    (trace.Extract env f m).run w = .ok (env.Extract b f m) w := by
  simp [trace.Extract, M.run, hb]

theorem index_lt_of_getElem? {α : Type} (l : List α) (i : Nat) (a : α)
    (h : l[i]? = some a) : i < l.length := by
  by_contra hlt
  rw [List.getElem?_eq_none (by omega)] at h
  cases h

/-! ## C4: package-level StartSpanFromContext -/

/-- C4: with the global tracer initialised, package-level `StartSpanFromContext` returns
`started = false`, the zero Tracer and an unchanged world (no span started) when the context
has neither a natively associated span nor a span under the generic key; it starts one span
as child of the native span when there is one, whatever the generic key holds; it starts one
span as child of the generic-key span when there is no native span; and the returned flag is
`false` exactly in the first case. -/
theorem C4_StartSpanFromContext (w : World) (b : TracerRef) (hb : w._tracer = some b)
    (ctx : Ctx) (name : String) (opts : List StartSpanOption) :
    ((opentracing.SpanFromContext w ctx = none ∧
        ∀ g, ctx.Value w (.str trace.CtxKey) ≠ .span g) →
        (trace.StartSpanFromContext ctx name opts).run w = .ok (trace.Tracer.zero, false) w)
    ∧ (∀ p, opentracing.SpanFromContext w ctx = some p →
        (trace.StartSpanFromContext ctx name opts).run w
          = .ok ({ Trace := some b, span := some w.nextSpan, tags := [], maxLogs := 0 }, true)
              { w with
                events := w.events ++
                  [.StartSpan b w.nextSpan name (opts ++ [.ChildOf (.ofSpan p)])]
                nextSpan := w.nextSpan + 1 })
    ∧ (∀ g, opentracing.SpanFromContext w ctx = none →
        ctx.Value w (.str trace.CtxKey) = .span g →
        (trace.StartSpanFromContext ctx name opts).run w
          = .ok ({ Trace := some b, span := some w.nextSpan, tags := [], maxLogs := 0 }, true)
              { w with
                events := w.events ++
                  [.StartSpan b w.nextSpan name (opts ++ [.ChildOf (.ofSpan g)])]
                nextSpan := w.nextSpan + 1 })
    ∧ (∃ r w1, (trace.StartSpanFromContext ctx name opts).run w = .ok r w1 ∧
        (r.2 = false ↔
          (opentracing.SpanFromContext w ctx = none ∧
            ∀ g, ctx.Value w (.str trace.CtxKey) ≠ .span g))) := by
  refine ⟨?_, ?_, ?_, ?_⟩
  · rintro ⟨h1, h2⟩
    simp [trace.StartSpanFromContext, h1, h2]
  · intro p hp
    simp [trace.StartSpanFromContext, hp, hb]
  · intro g h1 hg
    simp [trace.StartSpanFromContext, h1, hg, hb]
  · cases hn : opentracing.SpanFromContext w ctx with
    | some p => simp [trace.StartSpanFromContext, hn, hb]
    | none =>
      cases hg : ctx.Value w (.str trace.CtxKey) with
      | span g => simp [trace.StartSpanFromContext, hn, hg, hb]
      | null => simp [trace.StartSpanFromContext, hn, hg]
      | md _ => simp [trace.StartSpanFromContext, hn, hg]
      | clientTrace _ => simp [trace.StartSpanFromContext, hn, hg]
      | other _ => simp [trace.StartSpanFromContext, hn, hg]

/-- C4 at a context holding span 3 natively and span 5 under the generic key: the new span
is a child of span 3. -/
theorem C4_StartSpanFromContext_witness :
    (trace.StartSpanFromContext ctxBoth "op" []).run emptyWorld
      = .ok ({ Trace := some 0, span := some emptyWorld.nextSpan, tags := [], maxLogs := 0 },
              true)
          { emptyWorld with
            events := emptyWorld.events ++
              [.StartSpan 0 emptyWorld.nextSpan "op" ([] ++ [.ChildOf (.ofSpan 3)])]
            nextSpan := emptyWorld.nextSpan + 1 } :=
  (C4_StartSpanFromContext emptyWorld 0 rfl ctxBoth "op" []).2.1 3 (by decide)

/-! ## Server adapters -/

/-- Calls made by the HTTP middleware, for the start options chosen from the `Extract`
result. -/
theorem http_Trace_run (env : Env) (w : World) (b : TracerRef) (hb : w._tracer = some b)
    (c : Nat) (g : GinContext) (hg : w.gins[c]? = some g) (opts : List StartSpanOption)
    (ho : opts = match env.Extract b .HTTPHeaders (mapContents w g.Request.Header) with
      | .error _ => []
      | .ok sc => [.RPCServerOption sc]) :
    ∃ w1 g1, (http.Trace env c).run w = .ok () w1 ∧
      newEvents w w1 =
        [.StartSpan b w.nextSpan g.Request.URL.Path opts,
         .SetTag w.nextSpan trace.TagComponent (.str "net/http"),
         .SetTag w.nextSpan trace.TagHTTPMethod (.str g.Request.Method),
         .SetTag w.nextSpan trace.TagHTTPURL (.str g.Request.URL.String),
         .Next g1,
         .Finish w.nextSpan] := by
  have hc : c < w.gins.length := index_lt_of_getElem? _ _ _ hg
  simp only [http.Trace, run_bind, run_getWorld, gin_get_run, hg,
    trace_Extract_run env b w hb]
  cases he : env.Extract b .HTTPHeaders (mapContents w g.Request.Header) with
  | error e =>
    simp only [he] at ho
    subst ho
    simp [trace.StartSpan, hb, trace.Tag, trace.Tracer.GetSpan, World.addEvents, hg, hc,
      gin.Next, newEvents, http.defaultComponentName]
  | ok sc =>
    simp only [he] at ho
    subst ho
    simp [trace.StartSpan, hb, trace.Tag, trace.Tracer.GetSpan, World.addEvents, hg, hc,
      gin.Next, newEvents, http.defaultComponentName]

/-- Calls made by the RPC server interceptor, for the start options chosen from the
`Extract` result. -/
theorem rpc_server_run (env : Env) (w : World) (t : trace.Tracer) (b : TracerRef)
    (ht : t.Trace = some b) (ctx : Ctx) (req : Value) (info : rpc.UnaryServerInfo)
    (handler : rpc.UnaryHandler) (opts : List StartSpanOption)
    (ho : opts = match env.Extract b .TextMap (incomingContents w ctx) with
      | .error _ => [.Tag (trace.Tag trace.TagComponent (.str "gRPC"))]
      | .ok sc => [.RPCServerOption sc, .Tag (trace.Tag trace.TagComponent (.str "gRPC")),
          .Tag ext.SpanKindRPCServer]) :
    ∃ w1 wh,
      (rpc.OpentracingServerInterceptor env t ctx req info handler).run w
        = .ok (handler wh (.withValue ctx (.str trace.CtxKey) (.span w.nextSpan)) req) w1 ∧
      newEvents w w1 =
        [.StartSpan b w.nextSpan info.FullMethod opts,
         .Handler (.withValue ctx (.str trace.CtxKey) (.span w.nextSpan)),
         .Finish w.nextSpan] := by
  unfold incomingContents at ho
  cases hm : metadata.FromIncomingContext w ctx with
  | some md =>
    simp only [hm] at ho
    cases he : env.Extract b .TextMap (mapContents w md) with
    | error e =>
      simp only [he] at ho
      subst ho
      simp only [rpc.OpentracingServerInterceptor, hm, trace.Tracer.Extract, ht, he,
        trace.Tracer.StartSpan, trace.NewWithTrace, trace.Tracer.GetSpan, opentracing.spanVal,
        run_bind, run_pure, run_getWorld, withDefer_run, StartSpan_some_run, callHandler_run,
        Finish_mk_run]
      refine ⟨_, _, rfl, ?_⟩
      simp [newEvents, World.addEvents]
    | ok sc =>
      simp only [he] at ho
      subst ho
      simp only [rpc.OpentracingServerInterceptor, hm, trace.Tracer.Extract, ht, he,
        trace.Tracer.StartSpan, trace.NewWithTrace, trace.Tracer.GetSpan, opentracing.spanVal,
        run_bind, run_pure, run_getWorld, withDefer_run, StartSpan_some_run, callHandler_run,
        Finish_mk_run]
      refine ⟨_, _, rfl, ?_⟩
      simp [newEvents, World.addEvents]
  | none =>
    simp only [hm] at ho
    have hmc : ∀ w0 : World, mapContents { w0 with maps := w0.maps ++ [[]] } w0.maps.length = [] := by
      intro w0; simp [mapContents]
    cases he : env.Extract b .TextMap [] with
    | error e =>
      simp only [he] at ho
      subst ho
      simp only [rpc.OpentracingServerInterceptor, hm, trace.Tracer.Extract, ht, he,
        trace.Tracer.StartSpan, trace.NewWithTrace, trace.Tracer.GetSpan, opentracing.spanVal,
        run_bind, run_pure, run_getWorld, withDefer_run, StartSpan_some_run, callHandler_run,
        Finish_mk_run, metadata.New, mapAlloc_run, hmc]
      refine ⟨_, _, rfl, ?_⟩
      simp [newEvents, World.addEvents]
    | ok sc =>
      simp only [he] at ho
      subst ho
      simp only [rpc.OpentracingServerInterceptor, hm, trace.Tracer.Extract, ht, he,
        trace.Tracer.StartSpan, trace.NewWithTrace, trace.Tracer.GetSpan, opentracing.spanVal,
        run_bind, run_pure, run_getWorld, withDefer_run, StartSpan_some_run, callHandler_run,
        Finish_mk_run, metadata.New, mapAlloc_run, hmc]
      refine ⟨_, _, rfl, ?_⟩
      simp [newEvents, World.addEvents]

/-! ## C5: server adapters -/

/-- C5: in the HTTP middleware `Trace` (global tracer initialised, valid gin context) and in
the RPC server interceptor (Tracer with a backend), every request starts exactly one span
and reaches the next handler exactly once.  If `Extract` fails the span is named after the
request path or full method and its start options carry no parent reference; if `Extract`
succeeds the start options make it a child of the extracted context with role server. -/
theorem C5_server_adapters_start_one_span (env : Env) (w : World)
    (b : TracerRef) (hb : w._tracer = some b)
    (c : Nat) (g : GinContext) (hg : w.gins[c]? = some g)
    (t : trace.Tracer) (b2 : TracerRef) (ht : t.Trace = some b2)
    (ctx : Ctx) (req : Value) (info : rpc.UnaryServerInfo) (handler : rpc.UnaryHandler) :
    (∀ e, env.Extract b .HTTPHeaders (mapContents w g.Request.Header) = .error e →
      ∃ w1 g1, (http.Trace env c).run w = .ok () w1 ∧
        newEvents w w1 =
          [.StartSpan b w.nextSpan g.Request.URL.Path [],
           .SetTag w.nextSpan trace.TagComponent (.str "net/http"),
           .SetTag w.nextSpan trace.TagHTTPMethod (.str g.Request.Method),
           .SetTag w.nextSpan trace.TagHTTPURL (.str g.Request.URL.String),
           .Next g1,
           .Finish w.nextSpan] ∧
        opentracing.references [] = [] ∧
        (newEvents w w1).countP Event.isStartSpan = 1 ∧
        (newEvents w w1).countP Event.isHostCall = 1)
    ∧ (∀ sc, env.Extract b .HTTPHeaders (mapContents w g.Request.Header) = .ok sc →
      ∃ w1 g1, (http.Trace env c).run w = .ok () w1 ∧
        newEvents w w1 =
          [.StartSpan b w.nextSpan g.Request.URL.Path [.RPCServerOption sc],
           .SetTag w.nextSpan trace.TagComponent (.str "net/http"),
           .SetTag w.nextSpan trace.TagHTTPMethod (.str g.Request.Method),
           .SetTag w.nextSpan trace.TagHTTPURL (.str g.Request.URL.String),
           .Next g1,
           .Finish w.nextSpan] ∧
        opentracing.references [.RPCServerOption sc] = [sc] ∧
        ext.SpanKindRPCServer ∈ opentracing.startTags [.RPCServerOption sc] ∧
        (newEvents w w1).countP Event.isStartSpan = 1 ∧
        (newEvents w w1).countP Event.isHostCall = 1)
    ∧ (∀ e, env.Extract b2 .TextMap (incomingContents w ctx) = .error e →
      ∃ w1 wh,
        (rpc.OpentracingServerInterceptor env t ctx req info handler).run w
          = .ok (handler wh (.withValue ctx (.str trace.CtxKey) (.span w.nextSpan)) req) w1 ∧
        newEvents w w1 =
          [.StartSpan b2 w.nextSpan info.FullMethod
              [.Tag (trace.Tag trace.TagComponent (.str "gRPC"))],
           .Handler (.withValue ctx (.str trace.CtxKey) (.span w.nextSpan)),
           .Finish w.nextSpan] ∧
        opentracing.references [.Tag (trace.Tag trace.TagComponent (.str "gRPC"))] = [] ∧
        (newEvents w w1).countP Event.isStartSpan = 1 ∧
        (newEvents w w1).countP Event.isHostCall = 1)
    ∧ (∀ sc, env.Extract b2 .TextMap (incomingContents w ctx) = .ok sc →
      ∃ w1 wh,
        (rpc.OpentracingServerInterceptor env t ctx req info handler).run w
          = .ok (handler wh (.withValue ctx (.str trace.CtxKey) (.span w.nextSpan)) req) w1 ∧
        newEvents w w1 =
          [.StartSpan b2 w.nextSpan info.FullMethod
              [.RPCServerOption sc, .Tag (trace.Tag trace.TagComponent (.str "gRPC")),
               .Tag ext.SpanKindRPCServer],
           .Handler (.withValue ctx (.str trace.CtxKey) (.span w.nextSpan)),
           .Finish w.nextSpan] ∧
        opentracing.references
          [.RPCServerOption sc, .Tag (trace.Tag trace.TagComponent (.str "gRPC")),
           .Tag ext.SpanKindRPCServer] = [sc] ∧
        ext.SpanKindRPCServer ∈ opentracing.startTags
          [.RPCServerOption sc, .Tag (trace.Tag trace.TagComponent (.str "gRPC")),
           .Tag ext.SpanKindRPCServer] ∧
        (newEvents w w1).countP Event.isStartSpan = 1 ∧
        (newEvents w w1).countP Event.isHostCall = 1) := by
  refine ⟨?_, ?_, ?_, ?_⟩
  · intro e he
    obtain ⟨w1, g1, hrun, hev⟩ := http_Trace_run env w b hb c g hg [] (by rw [he])
    refine ⟨w1, g1, hrun, hev, rfl, ?_, ?_⟩ <;>
      simp [hev, Event.isStartSpan, Event.isHostCall]
  · intro sc he
    obtain ⟨w1, g1, hrun, hev⟩ :=
      http_Trace_run env w b hb c g hg [.RPCServerOption sc] (by rw [he])
    refine ⟨w1, g1, hrun, hev, rfl, ?_, ?_, ?_⟩ <;>
      simp [hev, Event.isStartSpan, Event.isHostCall, opentracing.startTags]
  · intro e he
    obtain ⟨w1, wh, hrun, hev⟩ := rpc_server_run env w t b2 ht ctx req info handler _ (by rw [he])
    refine ⟨w1, wh, hrun, hev, rfl, ?_, ?_⟩ <;>
      simp [hev, Event.isStartSpan, Event.isHostCall]
  · intro sc he
    obtain ⟨w1, wh, hrun, hev⟩ := rpc_server_run env w t b2 ht ctx req info handler _ (by rw [he])
    refine ⟨w1, wh, hrun, hev, rfl, ?_, ?_, ?_⟩ <;>
      simp [hev, Event.isStartSpan, Event.isHostCall, opentracing.startTags]

/-- C5 at a request for `/hello` without trace header: the middleware starts one root span
and calls the next handler. -/
theorem C5_server_adapters_start_one_span_witness :
    ∃ w1 g1, (http.Trace envNotFound 0).run serverWorld = .ok () w1 ∧
      newEvents serverWorld w1 =
        [.StartSpan 0 serverWorld.nextSpan helloRequest.URL.Path [],
         .SetTag serverWorld.nextSpan trace.TagComponent (.str "net/http"),
         .SetTag serverWorld.nextSpan trace.TagHTTPMethod (.str helloRequest.Method),
         .SetTag serverWorld.nextSpan trace.TagHTTPURL (.str helloRequest.URL.String),
         .Next g1,
         .Finish serverWorld.nextSpan] ∧
      opentracing.references [] = [] ∧
      (newEvents serverWorld w1).countP Event.isStartSpan = 1 ∧
      (newEvents serverWorld w1).countP Event.isHostCall = 1 :=
  (C5_server_adapters_start_one_span envNotFound serverWorld 0 rfl 0
    { Keys := [], Request := helloRequest } rfl (freshTracer 0) 0 rfl .background (.str "ping")
    { FullMethod := "/svc/Ping" } okHandler).1
    { dynType := "*errors.errorString", msg := "not found" } rfl

/-! ## RPC client interceptor -/

theorem set_self_of_getElem? {α : Type} (l : List α) (i : Nat) (a : α) (h : l[i]? = some a) :
    l.set i a = l := by
  induction l generalizing i with
  | nil => simp
  | cons x xs ih =>
    cases i with
    | zero => simp at h; simp [h]
    | succ j => simp at h; simp [ih j h]

theorem applyWrites_md (env : Env) (writes : List (String × String)) (w : World) (r : Nat)
    (m : StringsMap) (h : w.maps[r]? = some m) :
    (applyWrites (rpc.MDReaderWriter.Set env r) writes).run w
      = .ok () { w with maps := w.maps.set r (mdAfter env m writes) } := by
  induction writes generalizing w m with
  | nil =>
    simp [applyWrites, mdAfter, set_self_of_getElem? _ _ _ h]
  | cons kv rest ih =>
    obtain ⟨k, v⟩ := kv
    have hi : r < w.maps.length := index_lt_of_getElem? _ _ _ h
    simp only [applyWrites, run_bind, rpc.MDReaderWriter.Set, run_getWorld, mapAssign_run, h]
    rw [ih _ (assocSet (env.ToLower k) (mapIndex w r (env.ToLower k) ++ [v]) m)
      (by simp [hi])]
    simp [mdAfter, mapIndex, h]

theorem assocGet_assocSet_self {β : Type} (k : String) (v : β) (m : List (String × β)) :
    assocGet k (assocSet k v m) = some v := by
  induction m with
  | nil => simp [assocSet, assocGet]
  | cons kv rest ih =>
    obtain ⟨k0, v0⟩ := kv
    by_cases hk : k0 = k
    · simp [assocSet, assocGet, hk]
    · simp [assocSet, assocGet, hk, ih]

theorem assocGet_assocSet_ne {β : Type} (k k1 : String) (hne : k1 ≠ k) (v : β)
    (m : List (String × β)) :
    assocGet k (assocSet k1 v m) = assocGet k m := by
  induction m with
  | nil => simp [assocSet, assocGet, hne]
  | cons kv rest ih =>
    obtain ⟨k0, v0⟩ := kv
    by_cases hk : k0 = k1
    · subst hk; simp [assocSet, assocGet, hne]
    · by_cases hk2 : k0 = k
      · subst hk2
        simp [assocSet, assocGet, hk]
      · simp [assocSet, assocGet, hk, hk2, ih]

theorem mdAfter_lookup (env : Env) (k : String) (writes : List (String × String)) (m : StringsMap) :
    (assocGet k (mdAfter env m writes)).getD []
      = (assocGet k m).getD [] ++ writtenUnder env k writes := by
  induction writes generalizing m with
  | nil => simp [mdAfter, writtenUnder]
  | cons kv rest ih =>
    obtain ⟨k1, v1⟩ := kv
    have hstep : mdAfter env m ((k1, v1) :: rest)
        = mdAfter env (assocSet (env.ToLower k1)
            (((assocGet (env.ToLower k1) m).getD []) ++ [v1]) m) rest := by
      simp [mdAfter]
    rw [hstep, ih]
    by_cases hk : env.ToLower k1 = k
    · subst hk
      simp [assocGet_assocSet_self, writtenUnder]
    · simp [assocGet_assocSet_ne _ _ hk, writtenUnder, hk]

theorem Ctx_Value_gins (ctx : Ctx) (k : CtxKey) (w1 w2 : World) (h : w1.gins = w2.gins) :
    ctx.Value w1 k = ctx.Value w2 k := by
  induction ctx with
  | background => rfl
  | withValue parent k0 v ih => simp [Ctx.Value, ih]
  | gin ref => cases k <;> simp [Ctx.Value, h]

theorem Tracer_StartSpanFromContext_run (t : trace.Tracer) (b : TracerRef)
    (ht : t.Trace = some b) (ctx : Ctx) (name : String) (opts : List StartSpanOption)
    (w : World) :
    (t.StartSpanFromContext ctx name opts).run w
      = .ok (⟨some b, some w.nextSpan, [], 0⟩, true)
          { w with
            events := w.events ++ [.StartSpan b w.nextSpan name (opts ++ childOfParent w ctx)]
            nextSpan := w.nextSpan + 1 } := by
  simp only [trace.Tracer.StartSpanFromContext, childOfParent, parentSpan, ht, run_bind,
    run_getWorld, run_pure, StartSpan_some_run, trace.NewWithTrace]
  cases opentracing.SpanFromContext w ctx with
  | some p => rfl
  | none =>
    cases ctx.Value w (.str trace.CtxKey) <;> simp

theorem Tracer_Inject_md_run (env : Env) (tr : Option TracerRef) (s : SpanId) (tg : List Tag)
    (ml : Int) (r : Nat) (m : StringsMap) (w : World) (h : w.maps[r]? = some m) :
    (trace.Tracer.Inject env ⟨tr, some s, tg, ml⟩ .TextMap (rpc.MDReaderWriter.Set env r)).run w
      = .ok (env.Inject s .TextMap).2
          { w with maps := w.maps.set r (mdAfter env m (env.Inject s .TextMap).1) } := by
  simp [trace.Tracer.Inject, applyWrites_md env _ _ _ m h]

/-- The run of the RPC client interceptor, in full: result and final world. -/
theorem rpc_client_eq (env : Env) (w : World) (t : trace.Tracer) (b : TracerRef)
    (ht : t.Trace = some b) (ctx : Ctx) (method : String) (req : Value)
    (invoker : rpc.UnaryInvoker) :
    (rpc.OpentracingClientInterceptor env t ctx method req invoker).run w
      = .ok (invoker (invokeWorld env w b ctx method)
              (metadata.NewOutgoingContext ctx w.maps.length) method req)
          ((invokeWorld env w b ctx method).addEvents
            (.Invoker (metadata.NewOutgoingContext ctx w.maps.length) method ::
              (match invoker (invokeWorld env w b ctx method)
                  (metadata.NewOutgoingContext ctx w.maps.length) method req with
                | some e => [.SetTag w.nextSpan trace.TagError (.str e.Error)]
                | none => []) ++ [.Finish w.nextSpan])) := by
  have hfo : ∀ es n, metadata.FromOutgoingContext
      ({ w with events := es, nextSpan := n } : World) ctx = metadata.FromOutgoingContext w ctx := by
    intro es n
    simp only [metadata.FromOutgoingContext]
    rw [Ctx_Value_gins ctx _ { w with events := es, nextSpan := n } w rfl]
  simp only [rpc.OpentracingClientInterceptor, Tracer_StartSpanFromContext_run t b ht,
    run_bind, run_pure, run_getWorld, SetTag_mk_run, World.addEvents, hfo]
  cases hm : metadata.FromOutgoingContext w ctx with
  | none =>
    simp only [metadata.New, run_bind, mapAlloc_run]
    rw [Tracer_Inject_md_run env _ _ _ _ _ [] _ (by simp)]
    cases hi : (env.Inject w.nextSpan .TextMap).2 <;>
      simp [invokeWorld, outgoingContents, hm, hi, World.addEvents, trace.Tag] <;>
      split <;> simp_all <;> simp [World.addEvents]
  | some md =>
    simp only [metadata.Copy, run_bind, run_getWorld, mapAlloc_run]
    rw [Tracer_Inject_md_run env _ _ _ _ _ (mapContents w md) _ (by simp [mapContents])]
    cases hi : (env.Inject w.nextSpan .TextMap).2 <;>
      simp [invokeWorld, outgoingContents, hm, hi, World.addEvents, trace.Tag, mapContents] <;>
      split <;> simp_all <;> simp [World.addEvents]

/-! ## C6: outgoing metadata is copied -/

/-- C6: the RPC client interceptor (Tracer with a backend) never writes to the metadata map
of the call context.  If the context carries outgoing metadata `md` (map `r`), that map still
holds `md` when the invoker is called and when the interceptor returns, every map that
existed before is unchanged, and the context passed to the invoker carries a new map holding
`md` followed by the `Set` calls of `Inject`: under every key, the old value list followed
by the values injected under a key that `strings.ToLower` maps to it.  If the context
carries no outgoing metadata, the new map holds the injected entries only. -/
theorem C6_client_interceptor_copies_metadata (env : Env) (w : World) (t : trace.Tracer)
    (b : TracerRef) (ht : t.Trace = some b) (ctx : Ctx) (method : String) (req : Value)
    (invoker : rpc.UnaryInvoker) :
    (∀ r md, metadata.FromOutgoingContext w ctx = some r → w.maps[r]? = some md →
      ∃ w1 wi,
        (rpc.OpentracingClientInterceptor env t ctx method req invoker).run w
          = .ok (invoker wi (metadata.NewOutgoingContext ctx w.maps.length) method req) w1 ∧
        wi.maps[r]? = some md ∧ w1.maps[r]? = some md ∧
        (∀ i, i < w.maps.length → w1.maps[i]? = w.maps[i]?) ∧
        metadata.FromOutgoingContext wi (metadata.NewOutgoingContext ctx w.maps.length)
          = some w.maps.length ∧
        w.maps.length ≠ r ∧
        wi.maps[w.maps.length]? = some (mdAfter env md (env.Inject w.nextSpan .TextMap).1) ∧
        w1.maps = wi.maps ∧
        (∀ k, mapIndex wi w.maps.length k
          = mapIndex w r k ++ writtenUnder env k (env.Inject w.nextSpan .TextMap).1) ∧
        (newEvents w w1).filter Event.isHostCall
          = [.Invoker (metadata.NewOutgoingContext ctx w.maps.length) method])
    ∧ (metadata.FromOutgoingContext w ctx = none →
      ∃ w1 wi,
        (rpc.OpentracingClientInterceptor env t ctx method req invoker).run w
          = .ok (invoker wi (metadata.NewOutgoingContext ctx w.maps.length) method req) w1 ∧
        (∀ i, i < w.maps.length → w1.maps[i]? = w.maps[i]?) ∧
        metadata.FromOutgoingContext wi (metadata.NewOutgoingContext ctx w.maps.length)
          = some w.maps.length ∧
        wi.maps[w.maps.length]? = some (mdAfter env [] (env.Inject w.nextSpan .TextMap).1) ∧
        w1.maps = wi.maps ∧
        (∀ k, mapIndex wi w.maps.length k
          = writtenUnder env k (env.Inject w.nextSpan .TextMap).1) ∧
        (newEvents w w1).filter Event.isHostCall
          = [.Invoker (metadata.NewOutgoingContext ctx w.maps.length) method]) := by
  have hev : ∀ o : Option GoError,
      (newEvents w ((invokeWorld env w b ctx method).addEvents
        (.Invoker (metadata.NewOutgoingContext ctx w.maps.length) method ::
          (match o with
            | some e => [.SetTag w.nextSpan trace.TagError (.str e.Error)]
            | none => []) ++ [.Finish w.nextSpan]))).filter Event.isHostCall
        = [.Invoker (metadata.NewOutgoingContext ctx w.maps.length) method] := by
    intro o
    cases o <;> cases hi : (env.Inject w.nextSpan .TextMap).2 <;>
      simp [newEvents, invokeWorld, World.addEvents, hi, Event.isHostCall]
  have hfo : ∀ w0 : World,
      metadata.FromOutgoingContext w0 (metadata.NewOutgoingContext ctx w.maps.length)
        = some w.maps.length := by
    intro w0
    simp [metadata.FromOutgoingContext, metadata.NewOutgoingContext, Ctx.Value]
  refine ⟨?_, ?_⟩
  · intro r md hr hmd
    have hlt : r < w.maps.length := index_lt_of_getElem? _ _ _ hmd
    have hoc : outgoingContents w ctx = md := by
      simp [outgoingContents, hr, mapContents, hmd]
    refine ⟨_, invokeWorld env w b ctx method,
      rpc_client_eq env w t b ht ctx method req invoker, ?_, ?_, ?_, hfo _, ?_, ?_, ?_, ?_,
      hev _⟩
    · simp [invokeWorld, List.getElem?_append_left hlt, hmd]
    · simp [invokeWorld, World.addEvents, List.getElem?_append_left hlt, hmd]
    · intro i hi
      simp [invokeWorld, World.addEvents, List.getElem?_append_left hi]
    · omega
    · simp [invokeWorld, hoc]
    · simp [invokeWorld, World.addEvents]
    · intro k
      simp [mapIndex, invokeWorld, hoc, hmd, mdAfter_lookup]
  · intro hr
    have hoc : outgoingContents w ctx = [] := by
      simp [outgoingContents, hr]
    refine ⟨_, invokeWorld env w b ctx method,
      rpc_client_eq env w t b ht ctx method req invoker, ?_, hfo _, ?_, ?_, ?_, hev _⟩
    · intro i hi
      simp [invokeWorld, World.addEvents, List.getElem?_append_left hi]
    · simp [invokeWorld, hoc]
    · simp [invokeWorld, World.addEvents]
    · intro k
      simp [mapIndex, invokeWorld, hoc, mdAfter_lookup, assocGet]

/-- C6 at a context whose outgoing metadata has one entry. -/
theorem C6_client_interceptor_copies_metadata_witness :
    ∃ w1 wi,
      (rpc.OpentracingClientInterceptor envNotFound (freshTracer 0) ctxOutgoing "/svc/Ping"
          (.str "ping") okInvoker).run clientWorld
        = .ok (okInvoker wi (metadata.NewOutgoingContext ctxOutgoing clientWorld.maps.length)
            "/svc/Ping" (.str "ping")) w1 ∧
      wi.maps[0]? = some [("authorization", ["token"])] ∧
      w1.maps[0]? = some [("authorization", ["token"])] ∧
      (∀ i, i < clientWorld.maps.length → w1.maps[i]? = clientWorld.maps[i]?) ∧
      metadata.FromOutgoingContext wi
          (metadata.NewOutgoingContext ctxOutgoing clientWorld.maps.length)
        = some clientWorld.maps.length ∧
      clientWorld.maps.length ≠ 0 ∧
      wi.maps[clientWorld.maps.length]?
        = some (mdAfter envNotFound [("authorization", ["token"])]
            (envNotFound.Inject clientWorld.nextSpan .TextMap).1) ∧
      w1.maps = wi.maps ∧
      (∀ k, mapIndex wi clientWorld.maps.length k
        = mapIndex clientWorld 0 k
            ++ writtenUnder envNotFound k (envNotFound.Inject clientWorld.nextSpan .TextMap).1) ∧
      (newEvents clientWorld w1).filter Event.isHostCall
        = [.Invoker (metadata.NewOutgoingContext ctxOutgoing clientWorld.maps.length)
            "/svc/Ping"] :=
  (C6_client_interceptor_copies_metadata envNotFound clientWorld (freshTracer 0) 0 rfl
    ctxOutgoing "/svc/Ping" (.str "ping") okInvoker).1 0 [("authorization", ["token"])]
    (by decide) (by decide)

/-! ## Cache hook -/

theorem SpanFromContext_some_run (w : World) (ctx : Ctx) (s : SpanId)
    (hs : opentracing.SpanFromContext w ctx = some s) :
    (trace.SpanFromContext ctx).run w = .ok (⟨w._tracer, some s, [], 0⟩, true) w := by
  simp [trace.SpanFromContext, hs]

theorem AfterProcess_error_run (w : World) (ctx : Ctx) (s : SpanId)
    (hs : opentracing.SpanFromContext w ctx = some s) (cmd : Cmder) (e : GoError)
    (he : cmd.Err = some e) (hne : e ≠ redis.Nil) :
    (cache.AfterProcess ctx cmd).run w
      = .ok none (w.addEvents
          [.SetTag s trace.TagError (.bool true),
           .LogFields s [trace.LogString trace.LogEvent "redis error",
             trace.LogString trace.LogMessage e.Error],
           .Finish s]) := by
  simp [cache.AfterProcess, SpanFromContext_some_run w ctx s hs, he, cache.recordError, hne,
    trace.Tag]

theorem AfterProcess_quiet_run (w : World) (ctx : Ctx) (s : SpanId)
    (hs : opentracing.SpanFromContext w ctx = some s) (cmd : Cmder)
    (he : cmd.Err = none ∨ cmd.Err = some redis.Nil) :
    (cache.AfterProcess ctx cmd).run w = .ok none (w.addEvents [.Finish s]) := by
  rcases he with he | he <;>
    simp [cache.AfterProcess, SpanFromContext_some_run w ctx s hs, he, cache.recordError]

/-! ## C7: cache command errors -/

/-- C7, counterexample: for a command that failed with a non-nil error whose message is the
empty string (not `redis.Nil`), `AfterProcess` tags the span and logs an entry whose message
field is the empty string, so the logged message is not always non-empty. -/
theorem C7_AfterProcess_empty_message_counterexample :
    newEvents emptyWorld ((cache.AfterProcess ctxNative cmdEmptyError).run emptyWorld).world
      = [.SetTag 0 trace.TagError (.bool true),
         .LogFields 0 [{ key := trace.LogEvent, value := .str "redis error" },
           { key := trace.LogMessage, value := .str "" }],
         .Finish 0] := by
  rw [AfterProcess_error_run emptyWorld ctxNative 0 (by decide) cmdEmptyError _ rfl (by decide)]
  simp [Res.world, trace.LogString, GoError.Error]

/-- C7, amended: for a context whose natively associated span is `s`, `AfterProcess` returns
nil and finishes `s` exactly once, as its last call.  If the command error is nil or
`redis.Nil` it makes no other call (no tag, no log).  For any other error it first sets tag
`error = true` and then logs one entry with event `redis error` and, as message, exactly the
text of the error (empty when that text is empty). -/
theorem C7_AfterProcess_records_error (w : World) (ctx : Ctx) (s : SpanId)
    (hs : opentracing.SpanFromContext w ctx = some s) (cmd : Cmder) :
    ((cmd.Err = none ∨ cmd.Err = some redis.Nil) →
      (cache.AfterProcess ctx cmd).run w = .ok none (w.addEvents [.Finish s]))
    ∧ (∀ e, cmd.Err = some e → e ≠ redis.Nil →
      (cache.AfterProcess ctx cmd).run w
        = .ok none (w.addEvents
            [.SetTag s trace.TagError (.bool true),
             .LogFields s [trace.LogString trace.LogEvent "redis error",
               trace.LogString trace.LogMessage e.Error],
             .Finish s]))
    ∧ (∃ w1, (cache.AfterProcess ctx cmd).run w = .ok none w1 ∧
        (newEvents w w1).count (.Finish s) = 1 ∧
        (newEvents w w1).countP Event.isFinish = 1) := by
  refine ⟨AfterProcess_quiet_run w ctx s hs cmd, AfterProcess_error_run w ctx s hs cmd, ?_⟩
  cases he : cmd.Err with
  | none =>
    refine ⟨_, AfterProcess_quiet_run w ctx s hs cmd (Or.inl he), ?_, ?_⟩ <;>
      simp [Event.isFinish]
  | some e =>
    by_cases hn : e = redis.Nil
    · refine ⟨_, AfterProcess_quiet_run w ctx s hs cmd (Or.inr (by rw [he, hn])), ?_, ?_⟩ <;>
        simp [Event.isFinish]
    · refine ⟨_, AfterProcess_error_run w ctx s hs cmd e he hn, ?_, ?_⟩ <;>
        simp [Event.isFinish]

/-- C7, amended claim at a command that failed with a connection error. -/
theorem C7_AfterProcess_records_error_witness :
    (cache.AfterProcess ctxNative cmdFailed).run emptyWorld
      = .ok none (emptyWorld.addEvents
          [.SetTag 0 trace.TagError (.bool true),
           .LogFields 0 [trace.LogString trace.LogEvent "redis error",
             trace.LogString trace.LogMessage
               (GoError.Error { dynType := "*net.OpError", msg := "connection refused" })],
           .Finish 0]) :=
  (C7_AfterProcess_records_error emptyWorld ctxNative 0 (by decide) cmdFailed).2.1
    { dynType := "*net.OpError", msg := "connection refused" } rfl (by decide)

/-! ## Storage callbacks -/

/-! ## C8: after without a stored span -/

/-- C8: when the side-table of the statement has no entry under the span key, or the entry
is not a Tracer, `after` returns normally with the world unchanged (no span finished, no
tag, no log) and the statement unchanged (error and side-table as before). -/
theorem C8_after_without_span_is_noop (env : Env) (db : orm.DB) (w : World)
    (h : db.InstanceGet orm.gormSpanKey = none ∨
      ∃ v, db.InstanceGet orm.gormSpanKey = some (.other v)) :
    (orm.after env db).run w = .ok db w := by
  rcases h with h | ⟨v, h⟩ <;> simp [orm.after, h]

/-- C8 at a failed statement with an empty side-table. -/
theorem C8_after_without_span_is_noop_witness :
    (orm.after envNotFound dbNoSpan).run emptyWorld = .ok dbNoSpan emptyWorld :=
  C8_after_without_span_is_noop envNotFound dbNoSpan emptyWorld (Or.inl (by decide))

theorem after_error_run (env : Env) (w : World) (db : orm.DB) (tr : trace.Tracer) (s : SpanId)
    (hget : db.InstanceGet orm.gormSpanKey = some (.tracer tr)) (hs : tr.span = some s)
    (hml : tr.maxLogs = 0) (e : GoError) (he : db.Error = some e) :
    (orm.after env db).run w
      = .ok db (w.addEvents
          [.SetTag s trace.TagDBStatement (.str (env.ToLower db.Statement.SQL)),
           .LogFields s [trace.LogBool trace.TagError true,
             trace.LogString trace.LogMessage e.Error],
           .Finish s]) := by
  obtain ⟨tb, sp, tg, ml⟩ := tr
  simp only at hs hml
  subst hs hml
  simp [orm.after, hget, he, trace.Tag]

theorem after_clean_run (env : Env) (w : World) (db : orm.DB) (tr : trace.Tracer) (s : SpanId)
    (hget : db.InstanceGet orm.gormSpanKey = some (.tracer tr)) (hs : tr.span = some s)
    (he : db.Error = none) :
    (orm.after env db).run w
      = .ok db (w.addEvents
          [.SetTag s trace.TagDBStatement (.str (env.ToLower db.Statement.SQL)),
           .Finish s]) := by
  obtain ⟨tb, sp, tg, ml⟩ := tr
  simp only at hs
  subst hs
  simp [orm.after, hget, he, trace.Tag]

/-! ## C9: after with a stored span -/

/-- What `after` does when the side-table holds a Tracer on span `s` (with the log counter
at its initial value 0): it leaves the statement unchanged, tags `s` with the lower-cased SQL
text and finishes `s` exactly once, as its last call.  If the statement produced an error it
writes, before finishing, one log entry with the fields `error = true` and the message of
the error; if not, it writes no log.  In neither case does it set the error tag. -/
theorem after_with_span (env : Env) (w : World) (db : orm.DB) (tr : trace.Tracer) (s : SpanId)
    (hget : db.InstanceGet orm.gormSpanKey = some (.tracer tr)) (hs : tr.span = some s)
    (hml : tr.maxLogs = 0) :
    (∀ e, db.Error = some e →
      (orm.after env db).run w
        = .ok db (w.addEvents
            [.SetTag s trace.TagDBStatement (.str (env.ToLower db.Statement.SQL)),
             .LogFields s [trace.LogBool trace.TagError true,
               trace.LogString trace.LogMessage e.Error],
             .Finish s]))
    ∧ (db.Error = none →
      (orm.after env db).run w
        = .ok db (w.addEvents
            [.SetTag s trace.TagDBStatement (.str (env.ToLower db.Statement.SQL)),
             .Finish s]))
    ∧ (∃ w1, (orm.after env db).run w = .ok db w1 ∧
        (newEvents w w1).countP Event.isFinish = 1 ∧
        (newEvents w w1).count (.Finish s) = 1 ∧
        (newEvents w w1).countP Event.isErrorTag = 0) := by
  refine ⟨after_error_run env w db tr s hget hs hml, after_clean_run env w db tr s hget hs, ?_⟩
  cases he : db.Error with
  | none =>
    refine ⟨_, after_clean_run env w db tr s hget hs he, ?_, ?_, ?_⟩ <;>
      simp [Event.isFinish, Event.isErrorTag, trace.TagDBStatement, trace.TagError]
  | some e =>
    refine ⟨_, after_error_run env w db tr s hget hs hml e he, ?_, ?_, ?_⟩ <;>
      simp [Event.isFinish, Event.isErrorTag, trace.TagDBStatement, trace.TagError]

/-- C9, evaluated on the code: for the failed statement `SELECT * FROM User` whose side-table
holds a Tracer on span 0, `after` tags the span with the lower-cased SQL text, writes one log
entry with the fields `error = true` and the message of the error, and finishes the span.
The error key is used as the key of a log field: no tag with the error key is set on the
span. -/
theorem C9_after_logs_error_without_tag :
    (orm.after envNotFound dbFailed).run emptyWorld
      = .ok dbFailed (emptyWorld.addEvents
          [.SetTag 0 trace.TagDBStatement (.str "select * from user"),
           .LogFields 0 [trace.LogBool trace.TagError true,
             trace.LogString trace.LogMessage "syntax error"],
           .Finish 0])
    ∧ (newEvents emptyWorld
        ((orm.after envNotFound dbFailed).run emptyWorld).world).countP Event.isErrorTag = 0
    ∧ ¬ ∃ v, Event.SetTag 0 trace.TagError v ∈
        newEvents emptyWorld ((orm.after envNotFound dbFailed).run emptyWorld).world := by
  have hl : envNotFound.ToLower dbFailed.Statement.SQL = "select * from user" := by decide
  have hrun := after_error_run envNotFound emptyWorld dbFailed (freshTracer 0) 0 (by decide)
    rfl rfl _ rfl
  rw [hl] at hrun
  refine ⟨hrun, ?_, ?_⟩ <;> rw [hrun] <;>
    simp [Res.world, Event.isErrorTag, trace.TagDBStatement, trace.TagError]

/-! ## HTTP client transport -/

theorem applyWrites_header (env : Env) (writes : List (String × String)) (w : World) (r : Nat)
    (m : StringsMap) (h : w.maps[r]? = some m) :
    (applyWrites (opentracing.HTTPHeadersCarrier.Set env r) writes).run w
      = .ok () { w with maps := w.maps.set r (headerAfter env m writes) } := by
  induction writes generalizing w m with
  | nil =>
    simp [applyWrites, headerAfter, set_self_of_getElem? _ _ _ h]
  | cons kv rest ih =>
    obtain ⟨k, v⟩ := kv
    have hi : r < w.maps.length := index_lt_of_getElem? _ _ _ h
    simp only [applyWrites, run_bind, opentracing.HTTPHeadersCarrier.Set, mapAssign_run, h]
    rw [ih _ (assocSet (env.CanonicalMIMEHeaderKey k) [v] m) (by simp [hi])]
    simp [headerAfter]

theorem Tracer_Inject_header_run (env : Env) (tr : Option TracerRef) (s : SpanId)
    (tg : List Tag) (ml : Int) (r : Nat) (m : StringsMap) (w : World)
    (h : w.maps[r]? = some m) :
    (trace.Tracer.Inject env ⟨tr, some s, tg, ml⟩ .HTTPHeaders
        (opentracing.HTTPHeadersCarrier.Set env r)).run w
      = .ok (env.Inject s .HTTPHeaders).2
          { w with maps := w.maps.set r (headerAfter env m (env.Inject s .HTTPHeaders).1) } := by
  simp [trace.Tracer.Inject, applyWrites_header env _ _ _ m h]

theorem StartSpanFromContext_parent_run (w : World) (b : TracerRef) (hb : w._tracer = some b)
    (ctx : Ctx) (p : SpanId) (hp : parentSpan w ctx = some p) (name : String)
    (opts : List StartSpanOption) :
    (trace.StartSpanFromContext ctx name opts).run w
      = .ok (⟨some b, some w.nextSpan, [], 0⟩, true)
          { w with
            events := w.events ++ [.StartSpan b w.nextSpan name (opts ++ [.ChildOf (.ofSpan p)])]
            nextSpan := w.nextSpan + 1 } := by
  unfold parentSpan at hp
  cases hn : opentracing.SpanFromContext w ctx with
  | some q =>
    simp only [hn, Option.some.injEq] at hp
    subst hp
    simp [trace.StartSpanFromContext, hn, hb]
  | none =>
    simp only [hn] at hp
    cases hg : ctx.Value w (.str trace.CtxKey) with
    | span g =>
      simp only [hg, Option.some.injEq] at hp
      subst hp
      simp [trace.StartSpanFromContext, hn, hg, hb]
    | null => simp [hg] at hp
    | md _ => simp [hg] at hp
    | clientTrace _ => simp [hg] at hp
    | other _ => simp [hg] at hp

/-- The run of `RoundTrip` when the transport returns an error. -/
theorem RoundTrip_error_run (env : Env) (w : World) (b : TracerRef) (hb : w._tracer = some b)
    (t : http.TraceTransport) (req : Request) (p : SpanId)
    (hp : parentSpan w req.ctx = some p) (hdr : StringsMap)
    (hh : w.maps[req.Header]? = some hdr) (resp : Option Response) (e : GoError)
    (hrt : transportOf env t (transportWorld env w b t req p) req = (resp, some e)) :
    (t.RoundTrip env req).run w
      = .ok (resp, some e)
          ((transportWorld env w b t req p).addEvents
            [.RoundTrip req, .SetTag w.nextSpan trace.TagError (.bool true),
             .Finish w.nextSpan]) := by
  have hmc : mapContents w req.Header = hdr := by simp [mapContents, hh]
  obtain ⟨itags, ps, rtp⟩ := t
  cases rtp <;>
  simp only [http.TraceTransport.RoundTrip, StartSpanFromContext_parent_run w b hb req.ctx p hp,
    run_bind, run_pure, SetTag_mk_run, World.addEvents]
  all_goals by_cases hps : ps = "" <;> rcases itags with _ | ⟨tg0, tgs⟩
  all_goals
    simp only [transportOf, transportWorld, hps, hmc, World.addEvents, trace.Tag,
      http.defaultComponentName, ne_eq, not_true_eq_false, not_false_eq_true, if_true, if_false,
      List.append_nil, List.cons_append, List.nil_append, List.append_assoc, List.map_nil,
      List.map_cons] at hrt
    simp [hps, hh, Tracer_Inject_header_run env _ _ _ _ req.Header hdr, World.addEvents,
      trace.Tag, http.defaultComponentName, transportWorld]
    rw [hrt]
    simp [World.addEvents, hps, hmc]

theorem setTags_no_finish (n s : SpanId) (tags : List Tag) :
    (tags.map fun tag => Event.SetTag n tag.Key tag.Value).count (.Finish s) = 0 := by
  induction tags with
  | nil => rfl
  | cons tag rest ih => simp [List.count_cons, ih]

theorem setTags_countP_isFinish (n : SpanId) (tags : List Tag) :
    (tags.map fun tag => Event.SetTag n tag.Key tag.Value).countP Event.isFinish = 0 := by
  induction tags with
  | nil => rfl
  | cons tag rest ih => simp [List.countP_cons, ih, Event.isFinish]

theorem setTags_no_hostCall (n : SpanId) (tags : List Tag) :
    (tags.map fun tag => Event.SetTag n tag.Key tag.Value).filter Event.isHostCall = [] := by
  induction tags with
  | nil => rfl
  | cons tag rest ih => simp [List.filter_cons, ih, Event.isHostCall]

/-! ## C10: transport errors -/

/-- C10: with the global tracer initialised, a request whose context yields parent span `p`
and whose header map exists, if the underlying transport (called once, with the injected
headers in place) returns `(resp, e)` with `e` non-nil, then `RoundTrip` returns exactly
`(resp, e)`; after the transport call it sets tag `error = true` on the client span and
finishes that span, exactly once, as its last call. -/
theorem C10_RoundTrip_transport_error (env : Env) (w : World) (b : TracerRef)
    (hb : w._tracer = some b) (t : http.TraceTransport) (req : Request) (p : SpanId)
    (hp : parentSpan w req.ctx = some p) (hdr : StringsMap)
    (hh : w.maps[req.Header]? = some hdr) (resp : Option Response) (e : GoError)
    (hrt : transportOf env t (transportWorld env w b t req p) req = (resp, some e)) :
    ∃ w1, (t.RoundTrip env req).run w = .ok (resp, some e) w1 ∧
      w1 = (transportWorld env w b t req p).addEvents
        [.RoundTrip req, .SetTag w.nextSpan trace.TagError (.bool true), .Finish w.nextSpan] ∧
      (newEvents w w1).head?
        = some (.StartSpan b w.nextSpan ("Client-HTTP:" ++ req.Method) [.ChildOf (.ofSpan p)]) ∧
      (newEvents w w1).count (.Finish w.nextSpan) = 1 ∧
      (newEvents w w1).countP Event.isFinish = 1 ∧
      (newEvents w w1).filter Event.isHostCall = [.RoundTrip req] := by
  refine ⟨_, RoundTrip_error_run env w b hb t req p hp hdr hh resp e hrt, rfl, ?_, ?_, ?_, ?_⟩
  · simp [newEvents, transportWorld, World.addEvents]
  · by_cases hps : t.peerService = "" <;>
      simp [newEvents, transportWorld, World.addEvents, hps, List.count_cons,
        setTags_no_finish]
  · by_cases hps : t.peerService = "" <;>
      simp [newEvents, transportWorld, World.addEvents, hps, List.countP_cons,
        setTags_countP_isFinish, Event.isFinish]
  · by_cases hps : t.peerService = "" <;>
      simp [newEvents, transportWorld, World.addEvents, hps, List.filter_cons,
        setTags_no_hostCall, Event.isHostCall]

/-- C10 at a GET request under span 5 and a transport that refuses the connection. -/
theorem C10_RoundTrip_transport_error_witness :
    ∃ w1,
      (http.TraceTransport.RoundTrip envNotFound
          { internalTags := [], peerService := "permit", RoundTripper := some failingTransport }
          clientRequest).run serverWorld
        = .ok (none, some { dynType := "*net.OpError", msg := "connection refused" }) w1 ∧
      w1 = (transportWorld envNotFound serverWorld 0
          { internalTags := [], peerService := "permit", RoundTripper := some failingTransport }
          clientRequest 5).addEvents
        [.RoundTrip clientRequest, .SetTag serverWorld.nextSpan trace.TagError (.bool true),
         .Finish serverWorld.nextSpan] ∧
      (newEvents serverWorld w1).head?
        = some (.StartSpan 0 serverWorld.nextSpan ("Client-HTTP:" ++ clientRequest.Method)
            [.ChildOf (.ofSpan 5)]) ∧
      (newEvents serverWorld w1).count (.Finish serverWorld.nextSpan) = 1 ∧
      (newEvents serverWorld w1).countP Event.isFinish = 1 ∧
      (newEvents serverWorld w1).filter Event.isHostCall = [.RoundTrip clientRequest] :=
  C10_RoundTrip_transport_error envNotFound serverWorld 0 rfl
    { internalTags := [], peerService := "permit", RoundTripper := some failingTransport }
    clientRequest 5 (by decide) [] rfl none
    { dynType := "*net.OpError", msg := "connection refused" } rfl

/-! ## HTTP client transport: successful calls -/

/-- The run of `RoundTrip` when the transport returns a response and no error. -/
theorem RoundTrip_success_run (env : Env) (w : World) (b : TracerRef) (hb : w._tracer = some b)
    (t : http.TraceTransport) (req : Request) (p : SpanId)
    (hp : parentSpan w req.ctx = some p) (hdr : StringsMap)
    (hh : w.maps[req.Header]? = some hdr) (resp : Response)
    (hrt : transportOf env t (transportWorld env w b t req p) req = (some resp, none)) :
    ∃ tr : trace.Tracer, tr.span = some w.nextSpan ∧ tr.maxLogs = 0 ∧
      (t.RoundTrip env req).run w
        = .ok ((if req.Method = "HEAD" then some resp
                else some { resp with Body := .closeTracker resp.Body tr }), none)
            ((transportWorld env w b t req p).addEvents
              (successEvents w.nextSpan req resp.StatusCode)) := by
  have hmc : mapContents w req.Header = hdr := by simp [mapContents, hh]
  obtain ⟨itags, ps, rtp⟩ := t
  cases rtp <;>
  simp only [http.TraceTransport.RoundTrip, StartSpanFromContext_parent_run w b hb req.ctx p hp,
    run_bind, run_pure, SetTag_mk_run, World.addEvents]
  all_goals by_cases hps : ps = "" <;> rcases itags with _ | ⟨tg0, tgs⟩
  all_goals
    simp only [transportOf, transportWorld, hps, hmc, World.addEvents, trace.Tag,
      http.defaultComponentName, ne_eq, not_true_eq_false, not_false_eq_true, if_true, if_false,
      List.append_nil, List.cons_append, List.nil_append, List.append_assoc, List.map_nil,
      List.map_cons] at hrt
    simp [hps, hh, Tracer_Inject_header_run env _ _ _ _ req.Header hdr, World.addEvents,
      trace.Tag, http.defaultComponentName, transportWorld]
    rw [hrt]
    by_cases hs : resp.StatusCode ≥ 500 <;> by_cases hm : req.Method = "HEAD" <;>
      simp [World.addEvents, hps, hmc, hs, hm, successEvents]
    all_goals exact ⟨⟨none, some w.nextSpan, [], 0⟩, rfl, rfl⟩

theorem newEvents_transportWorld (env : Env) (w : World) (b : TracerRef)
    (t : http.TraceTransport) (req : Request) (p : SpanId) (es : List Event) :
    newEvents w ((transportWorld env w b t req p).addEvents es)
      = preludeEvents w b t req p ++ es := by
  simp [newEvents, transportWorld, World.addEvents, preludeEvents]

theorem preludeEvents_countP_isFinish (w : World) (b : TracerRef) (t : http.TraceTransport)
    (req : Request) (p : SpanId) :
    (preludeEvents w b t req p).countP Event.isFinish = 0 := by
  by_cases hps : t.peerService = "" <;>
    simp [preludeEvents, hps, List.countP_cons, setTags_countP_isFinish, Event.isFinish]

theorem setTags_countP_isErrorTag (n : SpanId) (tags : List Tag)
    (h : ∀ tag ∈ tags, tag.Key ≠ trace.TagError) :
    (tags.map fun tag => Event.SetTag n tag.Key tag.Value).countP Event.isErrorTag = 0 := by
  induction tags with
  | nil => rfl
  | cons tag rest ih =>
    have h1 : tag.Key ≠ trace.TagError := h tag (List.mem_cons_self _ _)
    have h2 : ∀ tag ∈ rest, tag.Key ≠ trace.TagError :=
      fun x hx => h x (List.mem_cons_of_mem _ hx)
    simp [List.countP_cons, ih h2, Event.isErrorTag, h1]

theorem preludeEvents_countP_isErrorTag (w : World) (b : TracerRef) (t : http.TraceTransport)
    (req : Request) (p : SpanId) (h : ∀ tag ∈ t.internalTags, tag.Key ≠ trace.TagError) :
    (preludeEvents w b t req p).countP Event.isErrorTag = 0 := by
  by_cases hps : t.peerService = "" <;>
    simp [preludeEvents, hps, List.countP_cons, setTags_countP_isErrorTag _ _ h,
      Event.isErrorTag, trace.TagError, trace.TagComponent, trace.TagHTTPMethod,
      trace.TagHTTPURL, trace.TagSpanKind, trace.TagPeerService]

theorem Close_closeTracker_run (env : Env) (rc : Body) (tr : trace.Tracer) (n : SpanId)
    (hs : tr.span = some n) (hml : tr.maxLogs = 0) (w2 w3 : World) (err : Option GoError)
    (hc : (http.Close env rc).run w2 = .ok err w3) :
    (http.Close env (.closeTracker rc tr)).run w2
      = .ok err (w3.addEvents
          [.LogFields n [trace.LogString trace.LogEvent "ClosedBody"], .Finish n]) := by
  obtain ⟨tb, sp, tg, ml⟩ := tr
  simp only at hs hml
  subst hs hml
  simp [http.Close, hc]

theorem Close_raw_run (env : Env) (id : Nat) (w2 : World) :
    (http.Close env (.raw id)).run w2 = .ok (env.bodyClose id) (w2.addEvents [.BodyClose id]) := by
  simp [http.Close]

/-! ## C11: when the client span is finished -/

/-- C11: for a traced request (global tracer set, parent span `p`, header map present) whose
transport call returns a response and no error.  If the method is `HEAD`, `RoundTrip`
returns the response as it is (body not wrapped) and has finished the client span exactly
once, as its last call.  For every other method `RoundTrip` returns without any `Finish`
call and with the body wrapped in a `closeTracker` on the client span; closing the wrapped
body first closes the underlying body, then logs the event `ClosedBody`, then finishes the
span, and returns the close error of the underlying body. -/
theorem C11_RoundTrip_success_finish (env : Env) (w : World) (b : TracerRef)
    (hb : w._tracer = some b) (t : http.TraceTransport) (req : Request) (p : SpanId)
    (hp : parentSpan w req.ctx = some p) (hdr : StringsMap)
    (hh : w.maps[req.Header]? = some hdr) (resp : Response)
    (hrt : transportOf env t (transportWorld env w b t req p) req = (some resp, none)) :
    (req.Method = "HEAD" →
      ∃ w1, (t.RoundTrip env req).run w = .ok (some resp, none) w1 ∧
        (newEvents w w1).countP Event.isFinish = 1 ∧
        (newEvents w w1).getLast? = some (.Finish w.nextSpan))
    ∧ (req.Method ≠ "HEAD" →
      ∃ w1 tr, tr.span = some w.nextSpan ∧
        (t.RoundTrip env req).run w
          = .ok (some { resp with Body := .closeTracker resp.Body tr }, none) w1 ∧
        (newEvents w w1).countP Event.isFinish = 0 ∧
        (∀ w2 w3 err, (http.Close env resp.Body).run w2 = .ok err w3 →
          (http.Close env (.closeTracker resp.Body tr)).run w2
            = .ok err (w3.addEvents
                [.LogFields w.nextSpan [trace.LogString trace.LogEvent "ClosedBody"],
                 .Finish w.nextSpan])) ∧
        (∀ w2 id, resp.Body = .raw id →
          (http.Close env (.closeTracker resp.Body tr)).run w2
            = .ok (env.bodyClose id) (w2.addEvents
                [.BodyClose id,
                 .LogFields w.nextSpan [trace.LogString trace.LogEvent "ClosedBody"],
                 .Finish w.nextSpan]))) := by
  obtain ⟨tr, hs, hml, hrun⟩ := RoundTrip_success_run env w b hb t req p hp hdr hh resp hrt
  refine ⟨?_, ?_⟩
  · intro hm
    rw [if_pos hm] at hrun
    refine ⟨_, hrun, ?_, ?_⟩
    · rw [newEvents_transportWorld, List.countP_append, preludeEvents_countP_isFinish]
      by_cases h5 : resp.StatusCode ≥ 500 <;>
        simp [successEvents, hm, h5, List.countP_cons, Event.isFinish]
    · rw [newEvents_transportWorld]
      by_cases h5 : resp.StatusCode ≥ 500 <;>
        simp [successEvents, hm, h5, List.getLast?_append, List.getLast?_cons_cons]
  · intro hm
    rw [if_neg hm] at hrun
    refine ⟨_, tr, hs, hrun, ?_, ?_, ?_⟩
    · rw [newEvents_transportWorld, List.countP_append, preludeEvents_countP_isFinish]
      by_cases h5 : resp.StatusCode ≥ 500 <;>
        simp [successEvents, hm, h5, List.countP_cons, Event.isFinish]
    · intro w2 w3 err hc
      exact Close_closeTracker_run env resp.Body tr w.nextSpan hs hml w2 w3 err hc
    · intro w2 id hid
      rw [Close_closeTracker_run env resp.Body tr w.nextSpan hs hml w2 _ _
        (by rw [hid]; exact Close_raw_run env id w2)]
      simp

/-! ## C12: status code and error tag -/

/-- C12: for a traced request whose transport call returns a response with status `s` and
no error, the calls `RoundTrip` makes after the transport call contain the tag of the HTTP
status code with value `s`, and contain the tag `error = true` if and only if `s ≥ 500`;
they set the error key once if `s ≥ 500` and not at all otherwise.  When no configured
static tag uses the error key, the same count holds for the whole run. -/
theorem C12_RoundTrip_status_tag (env : Env) (w : World) (b : TracerRef)
    (hb : w._tracer = some b) (t : http.TraceTransport) (req : Request) (p : SpanId)
    (hp : parentSpan w req.ctx = some p) (hdr : StringsMap)
    (hh : w.maps[req.Header]? = some hdr) (resp : Response)
    (hrt : transportOf env t (transportWorld env w b t req p) req = (some resp, none)) :
    ∃ r w1, (t.RoundTrip env req).run w = .ok r w1 ∧
      Event.SetTag w.nextSpan trace.TagHTTPStatusCode (.int resp.StatusCode)
        ∈ newEvents (transportWorld env w b t req p) w1 ∧
      (Event.SetTag w.nextSpan trace.TagError (.bool true)
        ∈ newEvents (transportWorld env w b t req p) w1 ↔ resp.StatusCode ≥ 500) ∧
      ((newEvents (transportWorld env w b t req p) w1).countP Event.isErrorTag
        = if resp.StatusCode ≥ 500 then 1 else 0) ∧
      ((∀ tag ∈ t.internalTags, tag.Key ≠ trace.TagError) →
        ((newEvents w w1).countP Event.isErrorTag
          = if resp.StatusCode ≥ 500 then 1 else 0)) := by
  obtain ⟨tr, hs, hml, hrun⟩ := RoundTrip_success_run env w b hb t req p hp hdr hh resp hrt
  refine ⟨_, _, hrun, ?_, ?_, ?_, ?_⟩
  · simp [successEvents]
  · by_cases h5 : resp.StatusCode ≥ 500 <;> by_cases hm : req.Method = "HEAD" <;>
      simp [successEvents, h5, hm, trace.TagError, trace.TagHTTPStatusCode]
  · by_cases h5 : resp.StatusCode ≥ 500 <;> by_cases hm : req.Method = "HEAD" <;>
      simp [successEvents, h5, hm, List.countP_cons, Event.isErrorTag, trace.TagError,
        trace.TagHTTPStatusCode]
  · intro hno
    rw [newEvents_transportWorld, List.countP_append,
      preludeEvents_countP_isErrorTag w b t req p hno]
    by_cases h5 : resp.StatusCode ≥ 500 <;> by_cases hm : req.Method = "HEAD" <;>
      simp [successEvents, h5, hm, List.countP_cons, Event.isErrorTag, trace.TagError,
        trace.TagHTTPStatusCode]

/-- C11 at a GET request under span 5 answered with status 503. -/
theorem C11_RoundTrip_success_finish_witness :
    ∃ w1 tr, tr.span = some serverWorld.nextSpan ∧
      (permitTransport.RoundTrip envNotFound clientRequest).run serverWorld
        = .ok (some { ({ StatusCode := 503, Body := .raw 0 } : Response) with
              Body := .closeTracker (Body.raw 0) tr }, none) w1 ∧
      (newEvents serverWorld w1).countP Event.isFinish = 0 ∧
      (∀ w2 w3 err, (http.Close envNotFound (Body.raw 0)).run w2 = .ok err w3 →
        (http.Close envNotFound (.closeTracker (Body.raw 0) tr)).run w2
          = .ok err (w3.addEvents
              [.LogFields serverWorld.nextSpan [trace.LogString trace.LogEvent "ClosedBody"],
               .Finish serverWorld.nextSpan])) ∧
      (∀ w2 id, Body.raw 0 = .raw id →
        (http.Close envNotFound (.closeTracker (Body.raw 0) tr)).run w2
          = .ok (envNotFound.bodyClose id) (w2.addEvents
              [.BodyClose id,
               .LogFields serverWorld.nextSpan [trace.LogString trace.LogEvent "ClosedBody"],
               .Finish serverWorld.nextSpan])) :=
  (C11_RoundTrip_success_finish envNotFound serverWorld 0 rfl permitTransport clientRequest 5
    (by decide) [] rfl { StatusCode := 503, Body := .raw 0 } rfl).2 (by decide)

/-- C12 at a GET request under span 5 answered with status 503. -/
theorem C12_RoundTrip_status_tag_witness :
    ∃ r w1, (permitTransport.RoundTrip envNotFound clientRequest).run serverWorld = .ok r w1 ∧
      Event.SetTag serverWorld.nextSpan trace.TagHTTPStatusCode (.int 503)
        ∈ newEvents (transportWorld envNotFound serverWorld 0 permitTransport clientRequest 5)
            w1 ∧
      (Event.SetTag serverWorld.nextSpan trace.TagError (.bool true)
        ∈ newEvents (transportWorld envNotFound serverWorld 0 permitTransport clientRequest 5)
            w1 ↔ (503 : Int) ≥ 500) ∧
      ((newEvents (transportWorld envNotFound serverWorld 0 permitTransport clientRequest 5)
          w1).countP Event.isErrorTag = if (503 : Int) ≥ 500 then 1 else 0) ∧
      ((∀ tag ∈ permitTransport.internalTags, tag.Key ≠ trace.TagError) →
        ((newEvents serverWorld w1).countP Event.isErrorTag
          = if (503 : Int) ≥ 500 then 1 else 0)) :=
  C12_RoundTrip_status_tag envNotFound serverWorld 0 rfl permitTransport clientRequest 5
    (by decide) [] rfl { StatusCode := 503, Body := .raw 0 } rfl

/-! ## C13: where the RPC server span is stored -/

/-- C13, counterexample: for a call on the background context the RPC server interceptor
hands the handler a context in which the new span 1 sits under the generic key only; the
native lookup `SpanFromContext` on that context finds no span. -/
theorem C13_native_lookup_misses_server_span_counterexample :
    newEvents emptyWorld
        ((rpc.OpentracingServerInterceptor envNotFound backendTracer .background (.str "ping")
          { FullMethod := "/svc/Ping" } okHandler).run emptyWorld).world
      = [.StartSpan 0 1 "/svc/Ping" [.Tag (trace.Tag trace.TagComponent (.str "gRPC"))],
         .Handler (.withValue .background (.str trace.CtxKey) (.span 1)),
         .Finish 1]
    ∧ (trace.SpanFromContext (.withValue .background (.str trace.CtxKey) (.span 1))).run
        emptyWorld = .ok (trace.Tracer.zero, false) emptyWorld
    ∧ opentracing.SpanFromContext emptyWorld
        (.withValue .background (.str trace.CtxKey) (.span 1)) = none := by
  refine ⟨?_, ?_, ?_⟩
  · obtain ⟨w1, wh, hrun, hev⟩ := rpc_server_run envNotFound emptyWorld backendTracer 0 rfl
      .background (.str "ping") { FullMethod := "/svc/Ping" } okHandler _ rfl
    rw [hrun]
    simpa [Res.world, envNotFound, emptyWorld] using hev
  · simp [trace.SpanFromContext, opentracing.SpanFromContext, Ctx.Value]
  · simp [opentracing.SpanFromContext, Ctx.Value]

/-- C13, amended: the context the RPC server interceptor (Tracer with a backend) passes to
the handler is the incoming context extended with the newly started span under the generic
key `CtxKey`: a lookup of that key yields exactly the new span, while the native span
association is the one of the incoming context, so the native lookup finds what it found
before the interceptor ran. -/
theorem C13_server_interceptor_stores_generic_key (env : Env) (w : World) (t : trace.Tracer)
    (b : TracerRef) (ht : t.Trace = some b) (ctx : Ctx) (req : Value)
    (info : rpc.UnaryServerInfo) (handler : rpc.UnaryHandler) :
    ∃ w1 wh opts,
      (rpc.OpentracingServerInterceptor env t ctx req info handler).run w
        = .ok (handler wh (.withValue ctx (.str trace.CtxKey) (.span w.nextSpan)) req) w1 ∧
      newEvents w w1 =
        [.StartSpan b w.nextSpan info.FullMethod opts,
         .Handler (.withValue ctx (.str trace.CtxKey) (.span w.nextSpan)),
         .Finish w.nextSpan] ∧
      (∀ w0, (Ctx.withValue ctx (.str trace.CtxKey) (.span w.nextSpan)).Value w0
          (.str trace.CtxKey) = .span w.nextSpan) ∧
      (∀ w0, opentracing.SpanFromContext w0
          (.withValue ctx (.str trace.CtxKey) (.span w.nextSpan))
        = opentracing.SpanFromContext w0 ctx) := by
  obtain ⟨w1, wh, hrun, hev⟩ := rpc_server_run env w t b ht ctx req info handler _ rfl
  refine ⟨w1, wh, _, hrun, hev, ?_, ?_⟩
  · intro w0
    simp [Ctx.Value]
  · intro w0
    simp [opentracing.SpanFromContext, Ctx.Value]

/-- C13, amended claim at an incoming context that natively carries span 0. -/
theorem C13_server_interceptor_stores_generic_key_witness :
    ∃ w1 wh opts,
      (rpc.OpentracingServerInterceptor envNotFound backendTracer ctxNative (.str "ping")
          { FullMethod := "/svc/Ping" } okHandler).run emptyWorld
        = .ok (okHandler wh (.withValue ctxNative (.str trace.CtxKey)
            (.span emptyWorld.nextSpan)) (.str "ping")) w1 ∧
      newEvents emptyWorld w1 =
        [.StartSpan 0 emptyWorld.nextSpan "/svc/Ping" opts,
         .Handler (.withValue ctxNative (.str trace.CtxKey) (.span emptyWorld.nextSpan)),
         .Finish emptyWorld.nextSpan] ∧
      (∀ w0, (Ctx.withValue ctxNative (.str trace.CtxKey) (.span emptyWorld.nextSpan)).Value w0
          (.str trace.CtxKey) = .span emptyWorld.nextSpan) ∧
      (∀ w0, opentracing.SpanFromContext w0
          (.withValue ctxNative (.str trace.CtxKey) (.span emptyWorld.nextSpan))
        = opentracing.SpanFromContext w0 ctxNative) :=
  C13_server_interceptor_stores_generic_key envNotFound emptyWorld backendTracer 0 rfl
    ctxNative (.str "ping") { FullMethod := "/svc/Ping" } okHandler

/-! ## C14: Inject errors in the client adapters -/

/-- C14, evaluated on the code: with a backend whose `Inject` fails, the HTTP transport
wrapper calls the underlying transport once but sets no error tag on the client span (the
result of `Inject` is discarded there), whereas the RPC client interceptor sets
`error = true` and calls the invoker once. -/
theorem C14_http_client_drops_inject_error :
    newEvents serverWorld
        ((plainTransport.RoundTrip envInjectFails clientRequest).run serverWorld).world
      = [.StartSpan 0 1 "Client-HTTP:GET" [.ChildOf (.ofSpan 5)],
         .SetTag 1 trace.TagComponent (.str "net/http"),
         .SetTag 1 trace.TagHTTPMethod (.str "GET"),
         .SetTag 1 trace.TagHTTPURL (.str "http://localhost:8888/permit"),
         .SetTag 1 trace.TagSpanKind (.str "client"),
         .RoundTrip clientRequest,
         .SetTag 1 trace.TagHTTPStatusCode (.int 200)]
    ∧ (newEvents serverWorld
        ((plainTransport.RoundTrip envInjectFails clientRequest).run serverWorld).world).countP
          Event.isErrorTag = 0
    ∧ newEvents clientWorld
        ((rpc.OpentracingClientInterceptor envInjectFails backendTracer ctxOutgoing "/svc/Ping"
          (.str "ping") okInvoker).run clientWorld).world
      = [.StartSpan 0 1 "/svc/Ping" [.Tag ext.SpanKindRPCClient],
         .SetTag 1 trace.TagComponent (.str "gRPC"),
         .SetTag 1 trace.TagError (.bool true),
         .Invoker (metadata.NewOutgoingContext ctxOutgoing 1) "/svc/Ping",
         .Finish 1] := by
  have hhttp : newEvents serverWorld
        ((plainTransport.RoundTrip envInjectFails clientRequest).run serverWorld).world
      = [.StartSpan 0 1 "Client-HTTP:GET" [.ChildOf (.ofSpan 5)],
         .SetTag 1 trace.TagComponent (.str "net/http"),
         .SetTag 1 trace.TagHTTPMethod (.str "GET"),
         .SetTag 1 trace.TagHTTPURL (.str "http://localhost:8888/permit"),
         .SetTag 1 trace.TagSpanKind (.str "client"),
         .RoundTrip clientRequest,
         .SetTag 1 trace.TagHTTPStatusCode (.int 200)] := by
    obtain ⟨tr, _, _, hrun⟩ := RoundTrip_success_run envInjectFails serverWorld 0 rfl
      plainTransport clientRequest 5 (by decide) [] rfl { StatusCode := 200, Body := .raw 0 } rfl
    rw [hrun]
    simp [Res.world, newEvents_transportWorld, preludeEvents, successEvents, plainTransport,
      clientRequest, serverWorld]
  refine ⟨hhttp, ?_, ?_⟩
  · rw [hhttp]
    simp [List.countP_cons, Event.isErrorTag, trace.TagError, trace.TagComponent,
      trace.TagHTTPMethod, trace.TagHTTPURL, trace.TagSpanKind, trace.TagHTTPStatusCode]
  · rw [rpc_client_eq envInjectFails clientWorld backendTracer 0 rfl]
    simp [Res.world, newEvents, invokeWorld, World.addEvents, envInjectFails, okInvoker,
      clientWorld, childOfParent, parentSpan, opentracing.SpanFromContext, ctxOutgoing, Ctx.Value]

/-! ## C15: the HTTP client sub-event recorder -/

/-- C15, counterexample: on a recorder for span 0, `dnsDone` with an error and `connectDone`
with an error each write one log entry and nothing else; no error tag is set. -/
theorem C15_dns_and_connect_failures_set_no_error_tag_counterexample :
    newEvents emptyWorld
        ((recorderOnSpan.dnsDone { Addrs := [], Err := some dialError }).run emptyWorld).world
      = [.LogFields 0 [trace.LogString trace.LogEvent "DNSDone",
          trace.LogString trace.LogErrorObject "connection refused"]]
    ∧ newEvents emptyWorld
        ((recorderOnSpan.connectDone "tcp" "127.0.0.1:80" (some dialError)).run
          emptyWorld).world
      = [.LogFields 0 [trace.LogString trace.LogMessage "ConnectDone",
          trace.LogString trace.LogNetwork "tcp",
          trace.LogString trace.LogAddr "127.0.0.1:80",
          trace.LogString trace.LogEvent "error",
          trace.LogString trace.LogErrorObject "connection refused"]] := by
  refine ⟨?_, ?_⟩
  · simp [http.Tracer.dnsDone, http.dnsDoneFields, trace.LogFields, recorderOnSpan, freshTracer,
      trace.NewWithTrace, Res.world, dialError, GoError.Error]
  · simp [http.Tracer.connectDone, recorderOnSpan, freshTracer, trace.NewWithTrace, Res.world,
      dialError, GoError.Error]

/-- C15, amended: on a recorder whose Tracer holds span `s` (log counter 0), every sub-event
callback returns normally and writes exactly one log entry on `s`.  `wroteRequest` with an
error also sets tag `error = true`, after the log entry.  `dnsDone` with an error and
`connectDone` with an error record the error text as a log field and set no tag.  A
callback that reports no failure sets no error tag; `gotConn` sets the two connection tags
before its log entry.  The entry of `dnsDone` holds the event, one field per address and
the error text when fewer than 254 addresses are reported. -/
theorem C15_subevent_recorder (t : http.Tracer) (s : SpanId) (hs : t.tr.span = some s)
    (hml : t.tr.maxLogs = 0) (w : World) :
    -- wrote-request
    (∀ e, ∃ t1, (t.wroteRequest { Err := some e }).run w
        = .ok t1 (w.addEvents
            [.LogFields s [trace.LogString trace.LogMessage "WroteRequest",
              trace.LogString trace.LogEvent "error",
              trace.LogString trace.LogErrorObject e.Error],
             .SetTag s trace.TagError (.bool true)]))
    ∧ (∃ t1, (t.wroteRequest { Err := none }).run w
        = .ok t1 (w.addEvents [.LogFields s [trace.LogString trace.LogEvent "WroteRequest"]]))
    -- connect done
    ∧ (∀ network addr e, ∃ t1, (t.connectDone network addr (some e)).run w
        = .ok t1 (w.addEvents
            [.LogFields s [trace.LogString trace.LogMessage "ConnectDone",
              trace.LogString trace.LogNetwork network,
              trace.LogString trace.LogAddr addr,
              trace.LogString trace.LogEvent "error",
              trace.LogString trace.LogErrorObject e.Error]]))
    ∧ (∀ network addr, ∃ t1, (t.connectDone network addr none).run w
        = .ok t1 (w.addEvents
            [.LogFields s [trace.LogString trace.LogEvent "ConnectDone",
              trace.LogString trace.LogNetwork network,
              trace.LogString trace.LogAddr addr]]))
    -- DNS done
    ∧ (∀ info : http.DNSDoneInfo, ∃ t1 fields, (t.dnsDone info).run w
        = .ok t1 (w.addEvents [.LogFields s fields]) ∧
        (info.Addrs.length < 254 → fields = http.dnsDoneFields info) ∧
        (∀ e, info.Err = some e → info.Addrs.length < 254 →
          fields = [trace.LogString trace.LogEvent "DNSDone"]
            ++ (info.Addrs.map fun addr => trace.LogString trace.LogAddr addr)
            ++ [trace.LogString trace.LogErrorObject e.Error]))
    -- the sub-events that carry no failure
    ∧ (∀ hostPort, ∃ t1, (t.getConn hostPort).run w
        = .ok t1 (w.addEvents [.LogFields s [trace.LogString trace.LogEvent "GetConn",
            trace.LogString "hostPort" hostPort]]))
    ∧ (∀ info : http.GotConnInfo, ∃ t1, (t.gotConn info).run w
        = .ok t1 (w.addEvents
            [.SetTag s "net/http.reused" (.bool info.Reused),
             .SetTag s "net/http.was_idle" (.bool info.WasIdle),
             .LogFields s [trace.LogString trace.LogEvent "GotConn"]]))
    ∧ (∀ err, ∃ t1, (t.putIdleConn err).run w
        = .ok t1 (w.addEvents [.LogFields s [trace.LogString trace.LogEvent "PutIdleConn"]]))
    ∧ (∃ t1, t.gotFirstResponseByte.run w
        = .ok t1 (w.addEvents
            [.LogFields s [trace.LogString trace.LogEvent "GotFirstResponseByte"]]))
    ∧ (∃ t1, t.got100Continue.run w
        = .ok t1 (w.addEvents [.LogFields s [trace.LogString trace.LogEvent "Got100Continue"]]))
    ∧ (∀ info : http.DNSStartInfo, ∃ t1, (t.dnsStart info).run w
        = .ok t1 (w.addEvents [.LogFields s [trace.LogString trace.LogEvent "DNSStart",
            trace.LogString "host" info.Host]]))
    ∧ (∀ network addr, ∃ t1, (t.connectStart network addr).run w
        = .ok t1 (w.addEvents [.LogFields s [trace.LogString trace.LogEvent "ConnectStart",
            trace.LogString trace.LogNetwork network,
            trace.LogString trace.LogAddr addr]]))
    ∧ (∃ t1, t.wroteHeaders.run w
        = .ok t1 (w.addEvents [.LogFields s [trace.LogString trace.LogEvent "WroteHeaders"]]))
    ∧ (∃ t1, t.wait100Continue.run w
        = .ok t1 (w.addEvents
            [.LogFields s [trace.LogString trace.LogEvent "Wait100Continue"]])) := by
  obtain ⟨⟨tb, sp, tg, ml⟩⟩ := t
  simp only at hs hml
  subst hs hml
  refine ⟨?_, ?_, ?_, ?_, ?_, ?_, ?_, ?_, ?_, ?_, ?_, ?_, ?_, ?_⟩
  · intro e; simp [http.Tracer.wroteRequest, trace.Tag]
  · simp [http.Tracer.wroteRequest]
  · intro network addr e; simp [http.Tracer.connectDone]
  · intro network addr; simp [http.Tracer.connectDone]
  · intro info
    refine ⟨_, _,
      by simp only [http.Tracer.dnsDone, run_bind, SetLog_mk_run, run_pure]; rfl, ?_, ?_⟩
    · intro hlen
      have h1 : ((http.dnsDoneFields info).length : Int) < 256 := by
        cases he : info.Err <;>
          simp [http.dnsDoneFields, trace.LogFields, he] <;> omega
      simp [h1]
    · intro e he hlen
      have h1 : ((http.dnsDoneFields info).length : Int) < 256 := by
        simp [http.dnsDoneFields, trace.LogFields, he]; omega
      simp only [zero_add, if_pos h1]
      simp [http.dnsDoneFields, trace.LogFields, he]
  · intro hostPort; simp [http.Tracer.getConn]
  · intro info; simp [http.Tracer.gotConn, trace.Tag]
  · intro err; simp [http.Tracer.putIdleConn]
  · simp [http.Tracer.gotFirstResponseByte]
  · simp [http.Tracer.got100Continue]
  · intro info; simp [http.Tracer.dnsStart]
  · intro network addr; simp [http.Tracer.connectStart]
  · simp [http.Tracer.wroteHeaders]
  · simp [http.Tracer.wait100Continue]

/-- C15, amended claim at `wroteRequest` with a dial error on a recorder for span 0. -/
theorem C15_subevent_recorder_witness :
    ∃ t1, (recorderOnSpan.wroteRequest { Err := some dialError }).run emptyWorld
      = .ok t1 (emptyWorld.addEvents
          [.LogFields 0 [trace.LogString trace.LogMessage "WroteRequest",
            trace.LogString trace.LogEvent "error",
            trace.LogString trace.LogErrorObject dialError.Error],
           .SetTag 0 trace.TagError (.bool true)]) :=
  (C15_subevent_recorder recorderOnSpan 0 rfl rfl emptyWorld).1 dialError

/-! ## Metadata carrier -/

theorem foreachVals_ok (handler : String → String → Option GoError)
    (h : ∀ k v, handler k v = none) (k : String) (vals : List String) :
    rpc.foreachVals handler k vals = (vals.map fun v => (k, v), none) := by
  induction vals with
  | nil => rfl
  | cons v rest ih => simp [rpc.foreachVals, h, ih]

theorem foreachEntries_ok (handler : String → String → Option GoError)
    (h : ∀ k v, handler k v = none) (m : StringsMap) :
    rpc.foreachEntries handler m = (allPairs m, none) := by
  induction m with
  | nil => rfl
  | cons kv rest ih =>
    obtain ⟨k, vals⟩ := kv
    simp [rpc.foreachEntries, foreachVals_ok handler h, ih, allPairs]

theorem mem_allPairs_assocSet (key v : String) (p : String × String) (m : StringsMap) :
    p ∈ allPairs (assocSet key ((assocGet key m).getD [] ++ [v]) m)
      ↔ p ∈ allPairs m ∨ p = (key, v) := by
  induction m with
  | nil => simp [assocSet, assocGet, allPairs]
  | cons kv rest ih =>
    obtain ⟨k0, v0⟩ := kv
    by_cases hk : k0 = key
    · subst hk
      simp only [assocSet, assocGet, if_true, Option.getD_some, allPairs, List.map_append,
        List.map_cons, List.map_nil, List.mem_append, List.mem_singleton]
      tauto
    · simp only [assocSet, assocGet, hk, if_false, allPairs, List.mem_append, ih]
      tauto

theorem length_allPairs_assocSet (key v : String) (m : StringsMap) :
    (allPairs (assocSet key ((assocGet key m).getD [] ++ [v]) m)).length
      = (allPairs m).length + 1 := by
  induction m with
  | nil => simp [assocSet, assocGet, allPairs]
  | cons kv rest ih =>
    obtain ⟨k0, v0⟩ := kv
    by_cases hk : k0 = key
    · subst hk
      simp [assocSet, assocGet, allPairs]
      omega
    · simp [assocSet, assocGet, hk, allPairs, ih]
      omega

theorem filter_allPairs_not_key (k : String) (m : StringsMap) (h : k ∉ keysOf m) :
    (allPairs m).filter (fun p => p.1 = k) = [] := by
  induction m with
  | nil => rfl
  | cons kv rest ih =>
    obtain ⟨k0, v0⟩ := kv
    have h0 : k0 ≠ k := by
      intro he; apply h; simp [keysOf, he]
    have h1 : k ∉ keysOf rest := by
      intro hm; apply h; simp [keysOf] at hm ⊢; exact Or.inr hm
    simp [allPairs, List.filter_append, ih h1, List.filter_map, Function.comp_def, h0]

theorem values_of_key (k : String) (m : StringsMap) (hn : (keysOf m).Nodup) :
    ((allPairs m).filter (fun p => p.1 = k)).map (fun p => p.2) = (assocGet k m).getD [] := by
  induction m with
  | nil => rfl
  | cons kv rest ih =>
    obtain ⟨k0, v0⟩ := kv
    have hn0 : k0 ∉ keysOf rest := by
      simp [keysOf] at hn ⊢; exact hn.1
    have hn1 : (keysOf rest).Nodup := by
      simp [keysOf] at hn ⊢; exact hn.2
    by_cases hk : k0 = k
    · subst hk
      simp [allPairs, List.filter_append, filter_allPairs_not_key _ _ hn0, assocGet,
        List.filter_map, Function.comp_def]
    · simp [allPairs, List.filter_append, List.filter_map, Function.comp_def, hk, assocGet,
        ih hn1]

theorem keysOf_cons (kv : String × List String) (m : StringsMap) :
    keysOf (kv :: m) = kv.1 :: keysOf m := rfl

theorem mem_keysOf_assocSet (key : String) (vals : List String) (x : String) (m : StringsMap) :
    x ∈ keysOf (assocSet key vals m) ↔ x ∈ keysOf m ∨ x = key := by
  induction m with
  | nil => simp [assocSet, keysOf]
  | cons kv rest ih =>
    obtain ⟨k0, v0⟩ := kv
    by_cases hk : k0 = key
    · subst hk
      simp only [assocSet, if_true, keysOf_cons, List.mem_cons]
      tauto
    · simp only [assocSet, hk, if_false, keysOf_cons, List.mem_cons, ih]
      tauto

theorem keysOf_assocSet_nodup (key : String) (vals : List String) (m : StringsMap)
    (hn : (keysOf m).Nodup) : (keysOf (assocSet key vals m)).Nodup := by
  induction m with
  | nil => simp [assocSet, keysOf]
  | cons kv rest ih =>
    obtain ⟨k0, v0⟩ := kv
    rw [keysOf_cons, List.nodup_cons] at hn
    by_cases hk : k0 = key
    · subst hk
      simp only [assocSet, if_true, keysOf_cons, List.nodup_cons]
      exact hn
    · simp only [assocSet, hk, if_false, keysOf_cons, List.nodup_cons]
      refine ⟨?_, ih hn.2⟩
      intro hx
      rcases (mem_keysOf_assocSet key vals k0 rest).1 hx with h | h
      · exact hn.1 h
      · exact hk h

theorem MDSet_run (env : Env) (md : Nat) (k v : String) (w : World) (m : StringsMap)
    (h : w.maps[md]? = some m) :
    (rpc.MDReaderWriter.Set env md k v).run w
      = .ok () { w with maps := (w.maps.set md
          (assocSet (env.ToLower k)
            ((assocGet (env.ToLower k) m).getD [] ++ [v]) m)) } := by
  simp [rpc.MDReaderWriter.Set, h, mapIndex]

theorem callsUntilError_append (handler : String → String → Option GoError)
    (xs ys : List (String × String)) :
    callsUntilError handler (xs ++ ys) =
      match (callsUntilError handler xs).2 with
      | some err => ((callsUntilError handler xs).1, some err)
      | none =>
        ((callsUntilError handler xs).1 ++ (callsUntilError handler ys).1,
          (callsUntilError handler ys).2) := by
  induction xs with
  | nil => simp [callsUntilError]
  | cons p rest ih =>
    cases hp : handler p.1 p.2 with
    | some err => simp [callsUntilError, hp]
    | none =>
      cases hr : (callsUntilError handler rest).2 with
      | some e => simp [callsUntilError, hp, ih, hr]
      | none => simp [callsUntilError, hp, ih, hr]

theorem foreachVals_eq (handler : String → String → Option GoError) (k : String)
    (vals : List String) :
    rpc.foreachVals handler k vals = callsUntilError handler (vals.map fun v => (k, v)) := by
  induction vals with
  | nil => rfl
  | cons v rest ih =>
    cases hp : handler k v with
    | some err => simp [rpc.foreachVals, callsUntilError, hp]
    | none => simp [rpc.foreachVals, callsUntilError, hp, ih]

/-- The nested loops of `ForeachKey` are one pass over the flat list of pairs. -/
theorem foreachEntries_eq (handler : String → String → Option GoError) (m : StringsMap) :
    rpc.foreachEntries handler m = callsUntilError handler (allPairs m) := by
  induction m with
  | nil => rfl
  | cons kv rest ih =>
    obtain ⟨k, vals⟩ := kv
    simp only [rpc.foreachEntries, allPairs, callsUntilError_append, foreachVals_eq, ih]

/-! ## C16: Set and ForeachKey of the metadata carrier -/

/-- C16, counterexample: on a map holding `a -> [1]`, `Set(A, 2)` makes the list under `a`
`[1, 2]`, but `ForeachKey` with a handler that returns an error stops after its first call,
on `(a, 1)`, and never calls the handler on `(a, 2)`. -/
theorem C16_foreach_stops_at_first_error_counterexample :
    ((rpc.MDReaderWriter.Set envNotFound 0 "A" "2").run singleKeyWorld).world.maps = [[("a", ["1", "2"])]]
    ∧ rpc.MDReaderWriter.ForeachKey
        ((rpc.MDReaderWriter.Set envNotFound 0 "A" "2").run singleKeyWorld).world 0 rejectAll
      = ([("a", "1")], some { dynType := "*errors.errorString", msg := "stop" })
    ∧ (("a", "2") : String × String) ∉
        (rpc.MDReaderWriter.ForeachKey
          ((rpc.MDReaderWriter.Set envNotFound 0 "A" "2").run singleKeyWorld).world 0 rejectAll).1 := by
  have h1 : ((rpc.MDReaderWriter.Set envNotFound 0 "A" "2").run singleKeyWorld).world.maps
      = [[("a", ["1", "2"])]] := by
    rw [MDSet_run envNotFound 0 "A" "2" singleKeyWorld [("a", ["1"])] rfl]
    decide
  have h2 : rpc.MDReaderWriter.ForeachKey
        ((rpc.MDReaderWriter.Set envNotFound 0 "A" "2").run singleKeyWorld).world 0 rejectAll
      = ([("a", "1")], some { dynType := "*errors.errorString", msg := "stop" }) := by
    simp [rpc.MDReaderWriter.ForeachKey, mapContents, h1, rpc.foreachEntries, rpc.foreachVals,
      rejectAll]
  refine ⟨h1, h2, ?_⟩
  rw [h2]
  decide

/-- C16, amended: on an existing metadata map with distinct keys, `Set(k, v)` returns
normally; afterwards the list under `lowercase(k)`, the result of `strings.ToLower` on `k`,
is the previous list with `v` appended last, the entries under all other keys and all other
maps are unchanged, and a second `Set` with a key that lower-cases to the same text appends
to the same list.  `ForeachKey` with a
handler that never returns an error then returns nil and calls the handler exactly on the
pairs it would have visited before the `Set` and on `(lowercase(k), v)`, one call more than
before, the values of each key in list order.  For every handler, `ForeachKey` is one pass
over the pairs that stops at the first call whose result is an error and returns it. -/
theorem C16_metadata_set_then_foreach (env : Env) (w : World) (md : Nat) (m : StringsMap)
    (hm : w.maps[md]? = some m) (hn : (keysOf m).Nodup) (k v : String) :
    ∃ w1, (rpc.MDReaderWriter.Set env md k v).run w = .ok () w1 ∧
      mapIndex w1 md (env.ToLower k) = mapIndex w md (env.ToLower k) ++ [v] ∧
      (∀ k1, k1 ≠ env.ToLower k →
        assocGet k1 (mapContents w1 md) = assocGet k1 (mapContents w md)) ∧
      (∀ r, r ≠ md → w1.maps[r]? = w.maps[r]?) ∧
      (∀ k2 v2, env.ToLower k2 = env.ToLower k →
        ∃ w2, (rpc.MDReaderWriter.Set env md k2 v2).run w1 = .ok () w2 ∧
          mapIndex w2 md (env.ToLower k)
            = mapIndex w md (env.ToLower k) ++ [v, v2]) ∧
      (∀ handler : String → String → Option GoError, (∀ a b, handler a b = none) →
        (rpc.MDReaderWriter.ForeachKey w1 md handler).2 = none ∧
        (∀ p, p ∈ (rpc.MDReaderWriter.ForeachKey w1 md handler).1
          ↔ p ∈ (rpc.MDReaderWriter.ForeachKey w md handler).1
            ∨ p = (env.ToLower k, v)) ∧
        (rpc.MDReaderWriter.ForeachKey w1 md handler).1.length
          = (rpc.MDReaderWriter.ForeachKey w md handler).1.length + 1 ∧
        (∀ k1, (((rpc.MDReaderWriter.ForeachKey w1 md handler).1.filter
            (fun p => p.1 = k1)).map fun p => p.2) = mapIndex w1 md k1)) ∧
      (∀ handler : String → String → Option GoError,
        rpc.MDReaderWriter.ForeachKey w1 md handler
          = callsUntilError handler (allPairs (mapContents w1 md))) := by
  have hi : md < w.maps.length := index_lt_of_getElem? _ _ _ hm
  have hc : mapContents w md = m := by simp [mapContents, hm]
  have hget : ({ w with maps := (w.maps.set md
      (assocSet (env.ToLower k)
        ((assocGet (env.ToLower k) m).getD [] ++ [v]) m)) } : World).maps[md]?
      = some (assocSet (env.ToLower k)
        ((assocGet (env.ToLower k) m).getD [] ++ [v]) m) := by
    simp [hi]
  refine ⟨_, MDSet_run env md k v w m hm, ?_, ?_, ?_, ?_, ?_, ?_⟩
  · simp [mapIndex, hi, hm, assocGet_assocSet_self]
  · intro k1 hk1
    simp [mapContents, hi, hm, assocGet_assocSet_ne _ _ (Ne.symm hk1)]
  · intro r hr
    simp [List.getElem?_set_ne (Ne.symm hr)]
  · intro k2 v2 hk2
    refine ⟨_, MDSet_run env md k2 v2 _ _ hget, ?_⟩
    simp [mapIndex, hi, hm, hk2, assocGet_assocSet_self]
  · intro handler hh
    refine ⟨?_, ?_, ?_, ?_⟩
    · simp [rpc.MDReaderWriter.ForeachKey, foreachEntries_ok handler hh]
    · intro p
      simp only [rpc.MDReaderWriter.ForeachKey, foreachEntries_ok handler hh, mapContents, hget,
        hm, Option.getD_some]
      exact mem_allPairs_assocSet _ _ _ _
    · simp only [rpc.MDReaderWriter.ForeachKey, foreachEntries_ok handler hh, mapContents, hget,
        hm, Option.getD_some]
      exact length_allPairs_assocSet _ _ _
    · intro k1
      simp only [rpc.MDReaderWriter.ForeachKey, foreachEntries_ok handler hh, mapContents, hget,
        mapIndex, Option.getD_some, Option.bind_some]
      exact values_of_key k1 _ (keysOf_assocSet_nodup _ _ _ hn)
  · intro handler
    exact foreachEntries_eq handler _

/-- C16, amended claim at a map holding one `authorization` value. -/
theorem C16_metadata_set_then_foreach_witness :
    ∃ w1, (rpc.MDReaderWriter.Set envNotFound 0 "Authorization" "second").run clientWorld = .ok () w1 ∧
      mapIndex w1 0 (envNotFound.ToLower "Authorization")
        = mapIndex clientWorld 0 (envNotFound.ToLower "Authorization") ++ ["second"] ∧
      (∀ k1, k1 ≠ envNotFound.ToLower "Authorization" →
        assocGet k1 (mapContents w1 0) = assocGet k1 (mapContents clientWorld 0)) ∧
      (∀ r, r ≠ 0 → w1.maps[r]? = clientWorld.maps[r]?) ∧
      (∀ k2 v2, envNotFound.ToLower k2 = envNotFound.ToLower "Authorization" →
        ∃ w2, (rpc.MDReaderWriter.Set envNotFound 0 k2 v2).run w1 = .ok () w2 ∧
          mapIndex w2 0 (envNotFound.ToLower "Authorization")
            = mapIndex clientWorld 0 (envNotFound.ToLower "Authorization") ++ ["second", v2]) ∧
      (∀ handler : String → String → Option GoError, (∀ a b, handler a b = none) →
        (rpc.MDReaderWriter.ForeachKey w1 0 handler).2 = none ∧
        (∀ p, p ∈ (rpc.MDReaderWriter.ForeachKey w1 0 handler).1
          ↔ p ∈ (rpc.MDReaderWriter.ForeachKey clientWorld 0 handler).1
            ∨ p = (envNotFound.ToLower "Authorization", "second")) ∧
        (rpc.MDReaderWriter.ForeachKey w1 0 handler).1.length
          = (rpc.MDReaderWriter.ForeachKey clientWorld 0 handler).1.length + 1 ∧
        (∀ k1, (((rpc.MDReaderWriter.ForeachKey w1 0 handler).1.filter
            (fun p => p.1 = k1)).map fun p => p.2) = mapIndex w1 0 k1)) ∧
      (∀ handler : String → String → Option GoError,
        rpc.MDReaderWriter.ForeachKey w1 0 handler
          = callsUntilError handler (allPairs (mapContents w1 0))) :=
  C16_metadata_set_then_foreach envNotFound clientWorld 0 [("authorization", ["token"])] rfl
    (by decide) "Authorization" "second"

/-! ## C17: the RPC client interceptor and the invoker's error -/

/-- C17: with a backend tracer, every call of the RPC client interceptor returns normally
with exactly the invoker's result `err` (so nil exactly when the invoker returned nil); from
the invoker call on the backend sees the one invoker call, then the error tag carrying the
message of `err` when `err` is non-nil and nothing otherwise, then the finish of the client
span; over the whole call there is one host call and one finish, and the finish is the last
event. -/
theorem C17_client_interceptor_returns_invoker_error (env : Env) (w : World)
    (t : trace.Tracer) (b : TracerRef) (ht : t.Trace = some b) (ctx : Ctx) (method : String)
    (req : Value) (invoker : rpc.UnaryInvoker) :
    ∃ w1 err,
      err = invoker (invokeWorld env w b ctx method)
        (metadata.NewOutgoingContext ctx w.maps.length) method req ∧
      (rpc.OpentracingClientInterceptor env t ctx method req invoker).run w = .ok err w1 ∧
      newEvents (invokeWorld env w b ctx method) w1
        = [.Invoker (metadata.NewOutgoingContext ctx w.maps.length) method] ++
            invokerErrorEvents w.nextSpan err ++ [.Finish w.nextSpan] ∧
      (err = none ↔ ∀ e ∈ newEvents (invokeWorld env w b ctx method) w1,
        Event.isErrorTag e = false) ∧
      (newEvents w w1).countP Event.isHostCall = 1 ∧
      (newEvents w w1).countP Event.isFinish = 1 ∧
      (newEvents w w1).getLast? = some (.Finish w.nextSpan) := by
  refine ⟨_, _, rfl, rpc_client_eq env w t b ht ctx method req invoker, ?_, ?_, ?_, ?_, ?_⟩ <;>
    generalize invoker (invokeWorld env w b ctx method)
      (metadata.NewOutgoingContext ctx w.maps.length) method req = o
  · cases o <;> simp [invokerErrorEvents]
  · cases o <;> simp [invokerErrorEvents, Event.isErrorTag, trace.TagError]
  · cases o <;> cases hi : (env.Inject w.nextSpan .TextMap).2 <;>
      simp [newEvents, invokeWorld, World.addEvents, hi, Event.isHostCall, List.countP_cons]
  · cases o <;> cases hi : (env.Inject w.nextSpan .TextMap).2 <;>
      simp [newEvents, invokeWorld, World.addEvents, hi, Event.isFinish, List.countP_cons]
  · cases o <;> cases hi : (env.Inject w.nextSpan .TextMap).2 <;>
      simp [newEvents, invokeWorld, World.addEvents, hi, List.getLast?_append]

theorem C17_client_interceptor_returns_invoker_error_witness :
    ∃ w1 err,
      err = failingInvoker (invokeWorld envNotFound clientWorld 0 ctxOutgoing "/svc/Ping")
        (metadata.NewOutgoingContext ctxOutgoing clientWorld.maps.length) "/svc/Ping"
        (.str "ping") ∧
      (rpc.OpentracingClientInterceptor envNotFound backendTracer ctxOutgoing "/svc/Ping"
        (.str "ping") failingInvoker).run clientWorld = .ok err w1 ∧
      newEvents (invokeWorld envNotFound clientWorld 0 ctxOutgoing "/svc/Ping") w1
        = [.Invoker (metadata.NewOutgoingContext ctxOutgoing clientWorld.maps.length)
            "/svc/Ping"] ++
            invokerErrorEvents clientWorld.nextSpan err ++ [.Finish clientWorld.nextSpan] ∧
      (err = none ↔ ∀ e ∈ newEvents
        (invokeWorld envNotFound clientWorld 0 ctxOutgoing "/svc/Ping") w1,
        Event.isErrorTag e = false) ∧
      (newEvents clientWorld w1).countP Event.isHostCall = 1 ∧
      (newEvents clientWorld w1).countP Event.isFinish = 1 ∧
      (newEvents clientWorld w1).getLast? = some (.Finish clientWorld.nextSpan) :=
  C17_client_interceptor_returns_invoker_error envNotFound clientWorld backendTracer 0 rfl
    ctxOutgoing "/svc/Ping" (.str "ping") failingInvoker

/-! ## C18: cache hooks and the span they finish -/

theorem StartSpanFromContextV2_none_run (w : World) (ctx : Ctx)
    (h : ∀ g, ctx.Value w (.str trace.CtxKey) ≠ .span g) (name : String)
    (opts : List StartSpanOption) :
    (trace.StartSpanFromContextV2 ctx name opts).run w = .ok (trace.Tracer.zero, false) w := by
  simp [trace.StartSpanFromContextV2, h]

theorem StartSpanFromContextV2_some_run (w : World) (b : TracerRef) (hb : w._tracer = some b)
    (ctx : Ctx) (g : SpanId) (h : ctx.Value w (.str trace.CtxKey) = .span g) (name : String)
    (opts : List StartSpanOption) :
    (trace.StartSpanFromContextV2 ctx name opts).run w
      = .ok (⟨some b, some w.nextSpan, [], 0⟩, true)
          { w with
            events := w.events ++ [.StartSpan b w.nextSpan name (opts ++ [.ChildOf (.ofSpan g)])]
            nextSpan := w.nextSpan + 1 } := by
  simp [trace.StartSpanFromContextV2, h, hb]

theorem BeforeProcess_some_run (w : World) (b : TracerRef) (hb : w._tracer = some b)
    (ctx : Ctx) (g : SpanId) (h : ctx.Value w (.str trace.CtxKey) = .span g) (cmd : Cmder) :
    (cache.BeforeProcess ctx cmd).run w
      = .ok (opentracing.ContextWithSpan ctx (some w.nextSpan), none)
          { w with
            events := w.events ++ cacheStartEvents b w.nextSpan g cmd
            nextSpan := w.nextSpan + 1 } := by
  simp [cache.BeforeProcess, cache.setTags, StartSpanFromContextV2_some_run w b hb ctx g h,
    trace.Tracer.ContextWithSpan, World.addEvents, cacheStartEvents, trace.Tag]

/-- Where the pairing holds: with a span under the generic key, `BeforeProcess` starts one
child span and returns a context on which `AfterProcess` finishes exactly that child. -/
theorem cache_before_after_paired (w : World) (b : TracerRef) (hb : w._tracer = some b)
    (ctx : Ctx) (g : SpanId) (h : ctx.Value w (.str trace.CtxKey) = .span g) (cmd : Cmder)
    (hq : cmd.Err = none ∨ cmd.Err = some redis.Nil) :
    ∃ w1 ctx1, (cache.BeforeProcess ctx cmd).run w = .ok (ctx1, none) w1 ∧
      (newEvents w w1).filter Event.isStartSpan
        = [.StartSpan b w.nextSpan ("Redis:" ++ cmd.FullName) [.ChildOf (.ofSpan g)]] ∧
      (cache.AfterProcess ctx1 cmd).run w1 = .ok none (w1.addEvents [.Finish w.nextSpan]) := by
  refine ⟨_, _, BeforeProcess_some_run w b hb ctx g h cmd, ?_, ?_⟩
  · simp [newEvents, cacheStartEvents, Event.isStartSpan]
  · apply AfterProcess_quiet_run _ _ _ _ cmd hq
    simp [opentracing.ContextWithSpan, opentracing.SpanFromContext,
      Ctx.Value, opentracing.spanVal]

/-- C18: the cache hooks do not finish exactly the spans they started. On a context that
carries span 0 natively and nothing under the generic key, `BeforeProcess` starts no span,
leaves the world untouched and returns the same context, yet `AfterProcess` on that context
finishes the ambient span 0; `BeforeProcessPipeline` and `AfterProcessPipeline` behave the
same on a one-command pipeline. -/
theorem C18_AfterProcess_finishes_ambient_span :
    (cache.BeforeProcess ctxNative cmdOk).run emptyWorld = .ok (ctxNative, none) emptyWorld
    ∧ (cache.AfterProcess ctxNative cmdOk).run emptyWorld
        = .ok none (emptyWorld.addEvents [.Finish 0])
    ∧ (cache.BeforeProcessPipeline envNotFound ctxNative [cmdOk]).run emptyWorld
        = .ok (ctxNative, none) emptyWorld
    ∧ (cache.AfterProcessPipeline ctxNative [cmdOk]).run emptyWorld
        = .ok none (emptyWorld.addEvents [.Finish 0]) := by
  have hv : ∀ g, ctxNative.Value emptyWorld (.str trace.CtxKey) ≠ .span g := by
    intro g; simp [ctxNative, Ctx.Value]
  have hs : opentracing.SpanFromContext emptyWorld ctxNative = some 0 := by decide
  refine ⟨?_, ?_, ?_, ?_⟩
  · simp [cache.BeforeProcess, StartSpanFromContextV2_none_run _ _ hv]
  · exact AfterProcess_quiet_run emptyWorld ctxNative 0 hs cmdOk (Or.inl rfl)
  · simp [cache.BeforeProcessPipeline, StartSpanFromContextV2_none_run _ _ hv]
  · simp [cache.AfterProcessPipeline, SpanFromContext_some_run _ _ 0 hs, cmdOk]

/-! ## C19: the pipeline hook on an empty command list -/

/-- On a non-empty command list `AfterProcessPipeline` looks at the first command only and
behaves as `AfterProcess` does on that command. -/
theorem AfterProcessPipeline_nonempty_run (w : World) (ctx : Ctx) (s : SpanId)
    (hs : opentracing.SpanFromContext w ctx = some s) (cmd0 : Cmder) (rest : List Cmder) :
    (cache.AfterProcessPipeline ctx (cmd0 :: rest)).run w
      = (cache.AfterProcess ctx cmd0).run w := by
  cases he : cmd0.Err <;>
    simp [cache.AfterProcessPipeline, cache.AfterProcess, SpanFromContext_some_run w ctx s hs, he]

/-- C19: on the empty command list `AfterProcessPipeline` does not return nil. With a
context carrying span 0 the read of the first command is out of range: the call panics
with the runtime's index message, after the deferred finish of span 0 has run. -/
theorem C19_AfterProcessPipeline_empty_list_panics :
    (cache.AfterProcessPipeline ctxNative []).run emptyWorld
      = .panic "index out of range [0] with length 0" (emptyWorld.addEvents [.Finish 0]) := by
  have hs : opentracing.SpanFromContext emptyWorld ctxNative = some 0 := by decide
  simp [cache.AfterProcessPipeline, SpanFromContext_some_run _ _ 0 hs]

end GoTrace
